import Mathlib

/-!
Verification of the census-page HTML codec from the Transcription repository.

The repository holds two copies of the same codec:
  * `template/template.go` (`wrapCell`, `headerVal`, `pageTmpl`, `WriteHTML`)
    together with `parser` (`ParseHTML`, `ancestorTag`);
  * a single-file variant (`wrapCell`, `headerVal`, `pageTmpl`, `writeHTML`,
    `parseHTML`, `ancestorTag`).

This file shallowly embeds both directions:
  * the decoder's pure extraction pass over the parsed HTML tree,
  * the encoder's template instantiation as explicit string concatenation,
  * a tree parser modelled from the spec for the external HTML library
    (`golang.org/x/net/html`) that `ParseHTML` invokes, so that
    encode-then-decode round trips can be stated end to end.
-/

namespace Census

/-! ## Whitespace and trimming (Go `strings.TrimSpace`)

`unicode.IsSpace` for the whitespace characters that can occur in this
codec's documents (ASCII whitespace plus NEL and NBSP). -/

def isSpaceChar (c : Char) : Bool :=
  c = ' ' || c = '\t' || c = '\n' || c = '\x0b' || c = '\x0c' || c = '\r' ||
  c = '\x85' || c = '\xA0'

def trimChars (cs : List Char) : List Char :=
  ((cs.dropWhile isSpaceChar).reverse.dropWhile isSpaceChar).reverse

def trimString (s : String) : String :=
  ⟨trimChars s.data⟩

/-! ## HTML escaping (Go `html.EscapeString`, also the `html/template`
text-context auto-escaper applied to the footer values) -/

def escapeChar (c : Char) : List Char :=
  if c = '&' then "&amp;".data
  else if c = '\x27' then "&#39;".data
  else if c = '<' then "&lt;".data
  else if c = '>' then "&gt;".data
  else if c = '"' then "&#34;".data
  else [c]

def escapeChars (cs : List Char) : List Char :=
  cs.flatMap escapeChar

def escapeString (s : String) : String :=
  ⟨escapeChars s.data⟩

/-! ## Decimal rendering of row/column indices (Go `fmt.Sprintf("%d", n)`) -/

def digCh : Nat → Char
  | 0 => '0' | 1 => '1' | 2 => '2' | 3 => '3' | 4 => '4'
  | 5 => '5' | 6 => '6' | 7 => '7' | 8 => '8' | _ => '9'

def natCharsAux : Nat → Nat → List Char
  | 0, _ => []
  | f + 1, n => if n < 10 then [digCh n] else natCharsAux f (n / 10) ++ [digCh (n % 10)]

def natChars (n : Nat) : List Char :=
  natCharsAux (n + 1) n

def natStr (n : Nat) : String :=
  ⟨natChars n⟩

/-! ## The HTML tree

The generic node type of the external HTML library, restricted to what the
decoder inspects: element nodes (tag, attributes, ordered children) and text
nodes.  `ancestorTag`'s upward walk is embedded by passing an ancestor flag
downward during traversals. -/

inductive Node where
  | element (tag : String) (attrs : List (String × String)) (children : List Node)
  | text (data : String)

namespace Node

def isTag (n : Node) (t : String) : Bool :=
  match n with
  | element tag _ _ => tag = t
  | text _ => false

def hasAttr (n : Node) (key : String) : Bool :=
  match n with
  | element _ attrs _ => attrs.any (fun a => a.1 = key)
  | text _ => false

def childList (n : Node) : List Node :=
  match n with
  | element _ _ ch => ch
  | text _ => []

end Node

/-! ## Decoder extraction pass (`ParseHTML` after the library parse)

Every function below is a direct transcription of the corresponding loop of
`ParseHTML`; document order of the Go depth-first traversals is preserved. -/

mutual

/-- `text` helper of `ParseHTML`: concatenate all descendant text nodes in
document order (trimming is applied on top, in `nodeText`). -/
def textRaw : Node → String
  | .text d => d
  | .element _ _ ch => textRawList ch

def textRawList : List Node → String
  | [] => ""
  | n :: rest => textRaw n ++ textRawList rest

end

/-- `text` helper of `ParseHTML`: descendant text in document order,
then `strings.TrimSpace`. -/
def nodeText (n : Node) : String :=
  trimString (textRaw n)

/-! ### Header extraction

`collectTh` is the depth-first collection of every `th` element in document
order; the header loop scans each `th`'s direct children for the first `br`
and assigns the trimmed text of the sibling right after it to the next header
slot, stopping once `HeadCount = 7` slots are filled. -/

mutual

def collectTh : Node → List Node
  | .text _ => []
  | .element tag attrs ch =>
      (if tag = "th" then [Node.element tag attrs ch] else []) ++ collectThList ch

def collectThList : List Node → List Node
  | [] => []
  | n :: rest => collectTh n ++ collectThList rest

end

/-- Inner loop of the header pass: scan a `th`'s direct children for a `br`;
on the first one, produce `strings.TrimSpace(text(c.NextSibling))`
(`text(nil)` is the empty string). -/
def brVal : List Node → Option String
  | [] => none
  | c :: rest =>
      if c.isTag "br" then
        some (trimString (match rest.head? with
          | some sib => nodeText sib
          | none => ""))
      else brVal rest

/-- Outer loop of the header pass: values assigned to header slots in
document order, stopping after `HeadCount` slots (`idx` is the running count
of filled slots). -/
def headerVals (hc : Nat) : List Node → Nat → List String
  | [], _ => []
  | th :: rest, idx =>
      if hc ≤ idx then []
      else
        match brVal th.childList with
        | some v => v :: headerVals hc rest (idx + 1)
        | none => headerVals hc rest idx

/-! ### Body-row extraction

`collectTr` gathers every `tr` element that has a `tbody` ancestor
(`ancestorTag(n, "tbody")`), in document order.  The ancestor walk of the Go
code is embedded as the `inTbody` flag carried down the traversal: on the way
into an element's children the flag is set when that element is a `tbody`, so
the flag at a node states exactly that some strict ancestor is a `tbody`. -/

mutual

def collectTr (inTbody : Bool) : Node → List Node
  | .text _ => []
  | .element tag attrs ch =>
      (if tag = "tr" && inTbody then [Node.element tag attrs ch] else []) ++
        collectTrList (inTbody || tag = "tbody") ch

def collectTrList (inTbody : Bool) : List Node → List Node
  | [] => []
  | n :: rest => collectTr inTbody n ++ collectTrList inTbody rest

end

/-- Cell loop of the row pass: walk a `tr`'s direct children in order, take
only `td` elements, extract their text, stop at `FieldCount = 12`. -/
def rowVals (fc : Nat) : List Node → Nat → List String
  | [], _ => []
  | c :: rest, ci =>
      if fc ≤ ci then []
      else if c.isTag "td" then nodeText c :: rowVals fc rest (ci + 1)
      else rowVals fc rest ci

/-! ### Footer extraction

`walkFooter` is a depth-first walk collecting the text of every `td` element
with a `tfoot` ancestor, except that a `td` carrying a `colspan` attribute is
skipped together with its whole subtree (the Go callback `return`s before
recursing into the children). -/

mutual

def footCells (inTfoot : Bool) : Node → List String
  | .text _ => []
  | .element tag attrs ch =>
      if tag = "td" && inTfoot then
        if (Node.element tag attrs ch).hasAttr "colspan" then []
        else nodeText (Node.element tag attrs ch) ::
          footCellsList (inTfoot || tag = "tfoot") ch
      else footCellsList (inTfoot || tag = "tfoot") ch

def footCellsList (inTfoot : Bool) : List Node → List String
  | [] => []
  | n :: rest => footCells inTfoot n ++ footCellsList inTfoot rest

end

/-! ### Assembling the fixed-size aggregates -/

/-- Fixed field counts of the codec (`RowCount`, `FieldCount`, `HeadCount`,
`FootCount`). -/
def RowCount : Nat := 25
def FieldCount : Nat := 12
def HeadCount : Nat := 7
def FootCount : Nat := 4

/-- A Go fixed-size string array `[k]string`, filled from `vals` in order:
slots beyond `vals` keep the zero value `""`. -/
def fillSlots (k : Nat) (vals : List String) : List String :=
  vals.take k ++ List.replicate (k - (vals.take k).length) ""

/-- The all-empty row (`Row` zero value). -/
def emptyRow : List String := List.replicate FieldCount ""

/-- The 25-element row array: the first `min 25 (#trs)` rows filled from the
collected `tr`s, the rest left at the zero value. -/
def fillRows (trs : List Node) : List (List String) :=
  (trs.take RowCount).map (fun tr => fillSlots FieldCount (rowVals FieldCount tr.childList 0)) ++
    List.replicate (RowCount - (trs.take RowCount).length) emptyRow

/-- The pure extraction pass of `ParseHTML`, applied to the parsed document
tree: header, 25 rows, footer. -/
def extractPage (doc : Node) : List String × List (List String) × List String :=
  (fillSlots HeadCount (headerVals HeadCount (collectTh doc) 0),
   fillRows (collectTr false doc),
   fillSlots FootCount (footCells false doc))

/-! ## The HTML parser

Modelled from the spec: `ParseHTML` calls the external HTML library
(`golang.org/x/net/html`, not part of this repository) to "parse the input
into a generic HTML-like tree (element nodes with attributes and children,
text nodes, sibling/parent links)".  The model below is a character-driven
lexer plus a stack tree-builder for the document class this codec reads and
writes: tags with double-quoted attributes, void elements, doctype and
comments (skipped), and entity unescaping in text.  Tag-name case is kept as
written (the decoder only ever compares against lowercase names, and the
encoder emits all structural tags in lowercase, so case folding is
immaterial here).  Unparseable input (truncated markup, mismatched close
tag) yields `none`, the model of the spec's `ParseError`. -/

inductive Tok where
  | txt (s : String)
  | tagO (name : String) (attrs : List (String × String))
  | tagC (name : String)
deriving DecidableEq

/-- Lexer mode: where in the markup the scan currently stands, with the
partial data accumulated so far. -/
inductive LexMode where
  | txt (acc : List Char)
  | ent (acc : List Char) (name : List Char)
  | lt
  | tagN (name : List Char)
  | tagWS (name : List Char) (attrs : List (String × String))
  | atN (name : List Char) (attrs : List (String × String)) (an : List Char)
  | atEq (name : List Char) (attrs : List (String × String)) (an : List Char)
  | atV (name : List Char) (attrs : List (String × String)) (an : List Char) (av : List Char)
  | atU (name : List Char) (attrs : List (String × String)) (an : List Char) (av : List Char)
  | ctN (name : List Char)
  | bang1
  | bang2
  | doct
  | comm
  | commD
  | commDD
deriving DecidableEq

/-- Flush a pending text run into a token (empty runs produce nothing). -/
def flushTxt (acc : List Char) : List Tok :=
  if acc = [] then [] else [Tok.txt ⟨acc⟩]

/-- The entities the codec's documents contain (the five produced by the
escaper, plus `quot`); anything else is kept literally, as HTML parsers do
for unknown references. -/
def entResolve (name : List Char) : List Char :=
  if name = "amp".data then ['&']
  else if name = "lt".data then ['<']
  else if name = "gt".data then ['>']
  else if name = "quot".data then ['"']
  else if name = "#34".data then ['"']
  else if name = "#39".data then ['\x27']
  else '&' :: name ++ [';']

def isEntChar (c : Char) : Bool :=
  c.isAlpha || c.isDigit || c = '#'

def isNameStart (c : Char) : Bool :=
  c.isAlpha

/-- One lexer step on one character: the tokens it emits and the next mode. -/
def lexStep1 : LexMode → Char → List Tok × LexMode
  | .txt acc, c =>
      if c = '<' then (flushTxt acc, .lt)
      else if c = '&' then ([], .ent acc [])
      else ([], .txt (acc ++ [c]))
  | .ent acc name, c =>
      if c = ';' then ([], .txt (acc ++ entResolve name))
      else if c = '<' then (flushTxt (acc ++ '&' :: name), .lt)
      else if c = '&' then ([], .ent (acc ++ '&' :: name) [])
      else if isEntChar c then ([], .ent acc (name ++ [c]))
      else ([], .txt (acc ++ '&' :: name ++ [c]))
  | .lt, c =>
      if c = '/' then ([], .ctN [])
      else if c = '!' then ([], .bang1)
      else if isNameStart c then ([], .tagN [c])
      else ([], .txt ['<', c])
  | .tagN name, c =>
      if c = '>' then ([Tok.tagO ⟨name⟩ []], .txt [])
      else if isSpaceChar c then ([], .tagWS name [])
      else if c = '/' then ([], .tagWS name [])
      else ([], .tagN (name ++ [c]))
  | .tagWS name attrs, c =>
      if c = '>' then ([Tok.tagO ⟨name⟩ attrs], .txt [])
      else if isSpaceChar c then ([], .tagWS name attrs)
      else if c = '/' then ([], .tagWS name attrs)
      else ([], .atN name attrs [c])
  | .atN name attrs an, c =>
      if c = '=' then ([], .atEq name attrs an)
      else if c = '>' then ([Tok.tagO ⟨name⟩ (attrs ++ [(⟨an⟩, "")])], .txt [])
      else if isSpaceChar c then ([], .tagWS name (attrs ++ [(⟨an⟩, "")]))
      else ([], .atN name attrs (an ++ [c]))
  | .atEq name attrs an, c =>
      if c = '"' then ([], .atV name attrs an [])
      else if c = '>' then ([Tok.tagO ⟨name⟩ (attrs ++ [(⟨an⟩, "")])], .txt [])
      else if isSpaceChar c then ([], .atEq name attrs an)
      else ([], .atU name attrs an [c])
  | .atV name attrs an av, c =>
      if c = '"' then ([], .tagWS name (attrs ++ [(⟨an⟩, ⟨av⟩)]))
      else ([], .atV name attrs an (av ++ [c]))
  | .atU name attrs an av, c =>
      if c = '>' then ([Tok.tagO ⟨name⟩ (attrs ++ [(⟨an⟩, ⟨av⟩)])], .txt [])
      else if isSpaceChar c then ([], .tagWS name (attrs ++ [(⟨an⟩, ⟨av⟩)]))
      else ([], .atU name attrs an (av ++ [c]))
  | .ctN name, c =>
      if c = '>' then ([Tok.tagC ⟨name⟩], .txt [])
      else if isSpaceChar c then ([], .ctN name)
      else ([], .ctN (name ++ [c]))
  | .bang1, c =>
      if c = '-' then ([], .bang2)
      else if c = '>' then ([], .txt [])
      else ([], .doct)
  | .bang2, c =>
      if c = '-' then ([], .comm)
      else if c = '>' then ([], .txt [])
      else ([], .doct)
  | .doct, c =>
      if c = '>' then ([], .txt []) else ([], .doct)
  | .comm, c =>
      if c = '-' then ([], .commD) else ([], .comm)
  | .commD, c =>
      if c = '-' then ([], .commDD) else ([], .comm)
  | .commDD, c =>
      if c = '>' then ([], .txt [])
      else if c = '-' then ([], .commDD)
      else ([], .comm)

/-- Lexer state: tokens emitted so far, and the current mode. -/
abbrev LexSt := List Tok × LexMode

def lexStep (st : LexSt) (c : Char) : LexSt :=
  let d := lexStep1 st.2 c
  (st.1 ++ d.1, d.2)

def lexRun (st : LexSt) (cs : List Char) : LexSt :=
  cs.foldl lexStep st

/-- End of input: a pending text run (or stray entity) is flushed; ending in
the middle of a tag, comment or doctype is a parse failure. -/
def lexEnd (st : LexSt) : Option (List Tok) :=
  match st.2 with
  | .txt acc => some (st.1 ++ flushTxt acc)
  | .ent acc name => some (st.1 ++ flushTxt (acc ++ '&' :: name))
  | _ => none

def lex (s : String) : Option (List Tok) :=
  lexEnd (lexRun ([], .txt []) s.data)

/-! ### Tree building -/

/-- The HTML void elements: they never take a closing tag. -/
def voidTag (t : String) : Bool :=
  t = "area" || t = "base" || t = "br" || t = "col" || t = "embed" ||
  t = "hr" || t = "img" || t = "input" || t = "link" || t = "meta" ||
  t = "source" || t = "track" || t = "wbr"

/-- Builder stack: each open element with its attributes and the siblings
accumulated before it was opened. -/
abbrev BStack := List (String × List (String × String) × List Node)

def bstep : List Node × BStack → Tok → Option (List Node × BStack)
  | (acc, stk), .txt s => some (acc ++ [Node.text s], stk)
  | (acc, stk), .tagO t a =>
      if voidTag t then some (acc ++ [Node.element t a []], stk)
      else some ([], (t, a, acc) :: stk)
  | (acc, stk), .tagC t =>
      match stk with
      | [] => none
      | (t0, a0, sib) :: stk0 =>
          if t0 = t then some (sib ++ [Node.element t0 a0 acc], stk0) else none

def buildDoc (ts : List Tok) : Option Node := do
  let st ← ts.foldlM bstep ([], [])
  match st with
  | (acc, []) => some (Node.element "#document" [] acc)
  | _ => none

/-- Modelled from the spec: the external HTML library's parse of a document
into a generic tree, as used by `ParseHTML` (see the section comment). -/
def htmlParse (s : String) : Option Node :=
  (lex s).bind buildDoc

/-! ## The decoder entry point

`ParseHTML(path)` opens the file (failure: the spec's `ReadError`, modelled
as absent input), parses it (failure: `ParseError`), then runs the pure
extraction, which never fails. -/

inductive DecodeErr where
  | readError
  | parseError
deriving DecidableEq

def decode (input : Option String) :
    Except DecodeErr (List String × List (List String) × List String) :=
  match input with
  | none => .error .readError
  | some s =>
      match htmlParse s with
      | none => .error .parseError
      | some doc => .ok (extractPage doc)

/-! ## Encoder (`template/template.go`)

`wrapCell` and `headerVal` are the template helpers; `pageTmpl` is embedded
as its literal chunks split at the template holes, and `WriteHTML`'s
rendered output is their concatenation with the holes filled (`renderPage`).
The `{{range}}` loops over rows and cells become `bodyRows`/`rowCells`;
the `{{index .Footer i}}` holes pass through the `html/template`
text-context auto-escaper, i.e. `escapeString`. -/

/-- `wrapCell` formats a body cell with HTML markup when saving. -/
def wrapCell (v : String) (row col : Nat) : String :=
  if v = "" then ""
  else
    let esc := escapeString v
    let r := row + 1
    let c := col + 1
    if col = 4 then
      "<PersonRef detlnk=\"dpR" ++ natStr r ++ "C" ++ natStr c ++ "\">" ++ esc ++ "</PersonRef>"
    else if col = 1 || col = 10 then
      "<PlaceRef detlnk=\"dwR" ++ natStr r ++ "C" ++ natStr c ++ "\">" ++ esc ++ "</PlaceRef>"
    else
      "<Mark ref=\"R" ++ natStr r ++ "C" ++ natStr c ++ "\">" ++ esc ++ "</Mark>"

/-- `headerVal`: a line break plus the escaped value, or nothing when the
value is empty. -/
def headerVal (v : String) : String :=
  if v = "" then "" else "<br>" ++ escapeString v

/-- Literal chunks of `pageTmpl`, split at the template holes. -/
def chunkA : String :=
  "<!DOCTYPE html>\n<html lang=\"en\">\n<head><meta charset=\"UTF-8\"><title>1861 Census</title>\n<style>\n  .smaller-header \x7b font-size: 8px; \x7d\n  .small-header   \x7b font-size: 10px; \x7d\n  table, th, td   \x7b border: 1px solid black; border-collapse: collapse; \x7d\n  th, td          \x7b padding: 4px; font-size: 12px; \x7d\n  thead th        \x7b background-color: #f0f0f0; \x7d\n</style>\n</head>\n<body>\n<!-- HEADER -->\n<table border=\"1\" cellspacing=\"0\" cellpadding=\"0\">\n  <colgroup><col style=\"width:8.33%\" span=\"7\"></colgroup>\n  <thead>\n    <tr><th colspan=\"7\" align=\"center\">\n      The undermentioned Houses are situate within the Boundaries of the\n    </th></tr>\n    <tr>\n      <th style=\"line-height:5em; padding-bottom:2em;\">Parish [or Township] of"

def chunkB : String :=
  "</th>\n      <th style=\"line-height:5em; padding-bottom:2em;\">City or Municipal Borough of"

def chunkC : String :=
  "</th>\n      <th style=\"line-height:5em; padding-bottom:2em;\">Municipal Ward of"

def chunkD : String :=
  "</th>\n      <th style=\"line-height:5em; padding-bottom:2em;\">Parliamentary Borough of"

def chunkE : String :=
  "</th>\n      <th style=\"line-height:5em; padding-bottom:2em;\">Town of"

def chunkF : String :=
  "</th>\n      <th style=\"line-height:5em; padding-bottom:2em;\">Village or Hamlet of"

def chunkG : String :=
  "</th>\n      <th style=\"line-height:5em; padding-bottom:2em;\">Ecclesiastical District of"

def chunkH : String :=
  "</th>\n    </tr>\n    <tr>\n      <th class=\"small-header\">Sched. No.</th>\n      <th class=\"small-header\">Road, Street, &amp; No. or Name of House</th>\n      <th class=\"small-header\">Houses</th>\n      <th class=\"smaller-header\">Name &amp; Surname of each Person</th>\n      <th class=\"smaller-header\">Relation to Head of Family</th>\n      <th class=\"smaller-header\">Condition</th>\n      <th class=\"smaller-header\">Age of</th>\n      <th class=\"small-header\">Age of</th>\n      <th class=\"small-header\">Rank, Profession, or Occupation</th>\n      <th class=\"small-header\">Where Born</th>\n      <th class=\"small-header\">Whether Blind or Deaf-and-Dumb</th>\n      <th class=\"small-header\"></th>\n    </tr>\n  </thead>\n  <tbody>\n    "

def chunkMid : String :=
  "\n  </tbody>\n  <!-- FOOTER -->\n  "

def tfootChunk0 : String :=
  "<tfoot>\n    <tr>\n      <td colspan=\"2\" align=\"right\">Total of Houses...</td>\n      <td>"

def tfootChunk1 : String :=
  "</td>\n      <td>"

def tfootChunk2 : String :=
  "</td>\n      <td colspan=\"3\" align=\"right\">Total of Males and Females...</td>\n      <td>"

def tfootChunk3 : String :=
  "</td>\n      <td>"

def tfootChunk4 : String :=
  "</td>\n      <td colspan=\"2\"></td><td></td>\n    </tr>\n  </tfoot>"

def chunkTail : String :=
  "\n</table>\n</body>\n</html>"

/-- Inner `{{range $ci, $val := $row.Col}}` loop: one `<td>` per column. -/
def rowCells (ri : Nat) : Nat → List String → String
  | _, [] => ""
  | ci, v :: rest => "<td>" ++ wrapCell v ri ci ++ "</td>" ++ rowCells ri (ci + 1) rest

/-- Outer `{{range $ri, $row := .Rows}}` loop: the literal text around each
`<tr>` is the template text between the range markers. -/
def bodyRows : Nat → List (List String) → String
  | _, [] => ""
  | ri, row :: rest =>
      "\n    <tr>" ++ rowCells ri 0 row ++ "</tr>\n    " ++ bodyRows (ri + 1) rest

/-- The `<tfoot>` section with the four footer holes filled (auto-escaped). -/
def tfootFrag (f : List String) : String :=
  tfootChunk0 ++ escapeString (f.getD 0 "") ++
  tfootChunk1 ++ escapeString (f.getD 1 "") ++
  tfootChunk2 ++ escapeString (f.getD 2 "") ++
  tfootChunk3 ++ escapeString (f.getD 3 "") ++ tfootChunk4

/-- The full document `WriteHTML` renders: `pageTmpl` with every hole
filled. -/
def renderPage (h : List String) (rows : List (List String)) (f : List String) : String :=
  chunkA ++ headerVal (h.getD 0 "") ++ chunkB ++ headerVal (h.getD 1 "") ++
  chunkC ++ headerVal (h.getD 2 "") ++ chunkD ++ headerVal (h.getD 3 "") ++
  chunkE ++ headerVal (h.getD 4 "") ++ chunkF ++ headerVal (h.getD 5 "") ++
  chunkG ++ headerVal (h.getD 6 "") ++ chunkH ++ bodyRows 0 rows ++
  chunkMid ++ tfootFrag f ++ chunkTail

/-! ## Encoder, single-file variant

The single-file program duplicates `wrapCell` and `headerVal` verbatim, but
its `pageTmpl` differs: the header is closed after the seven location cells
and the body lives in a second `<table>` with its own two-row column-label
`<thead>`, and the sixth location label reads "Hamlet or Tything, &amp;c.,
of".  Chunks that are byte-identical to the first template are reused. -/

def wrapCell01 (v : String) (row col : Nat) : String :=
  if v = "" then ""
  else
    let esc := escapeString v
    let r := row + 1
    let c := col + 1
    if col = 4 then
      "<PersonRef detlnk=\"dpR" ++ natStr r ++ "C" ++ natStr c ++ "\">" ++ esc ++ "</PersonRef>"
    else if col = 1 || col = 10 then
      "<PlaceRef detlnk=\"dwR" ++ natStr r ++ "C" ++ natStr c ++ "\">" ++ esc ++ "</PlaceRef>"
    else
      "<Mark ref=\"R" ++ natStr r ++ "C" ++ natStr c ++ "\">" ++ esc ++ "</Mark>"

def headerVal01 (v : String) : String :=
  if v = "" then "" else "<br>" ++ escapeString v

def chunkF01 : String :=
  "</th>\n      <th style=\"line-height:5em; padding-bottom:2em;\">Hamlet or Tything, &amp;c., of"

def chunkH01 : String :=
  "</th>\n    </tr>\n  </thead>\n</table>\n\n<!-- BODY -->\n<table>\n  <colgroup>\n    <col style=\"width:1%\"><col style=\"width:8%\"><col style=\"width:.5%\"><col style=\"width:.5%\">\n    <col style=\"width:15%\"><col style=\"width:8%\"><col style=\"width:2%\">\n    <col style=\"width:1.5%\"><col style=\"width:1.5%\"><col style=\"width:20%\">\n    <col style=\"width:15%\"><col style=\"width:4%\">\n  </colgroup>\n  <thead>\n    <tr>\n      <th class=\"smaller-header\" rowspan=\"2\">No.<br>Schedule</th>\n      <th class=\"small-header\"   rowspan=\"2\">Road, Street, &amp;c;<br>&amp; No. or Name of House</th>\n      <th class=\"smaller-header\" colspan=\"2\">HOUSES</th>\n      <th class=\"small-header\"   rowspan=\"2\">Name and Surname of each Person</th>\n      <th rowspan=\"2\">Relation</th><th rowspan=\"2\">Condition</th>\n      <th colspan=\"2\">Age of</th>\n      <th rowspan=\"2\">Rank, Profession, or Occupation</th>\n      <th rowspan=\"2\">Where Born</th>\n      <th class=\"smaller-header\" rowspan=\"2\">Blind or Deaf-Dumb</th>\n    </tr>\n    <tr>\n      <th class=\"smaller-header\">In-habited</th><th class=\"smaller-header\">Un-inhabited or Bldg.</th>\n      <th class=\"smaller-header\">Males</th><th class=\"smaller-header\">Females</th>\n    </tr>\n  </thead>\n  <tbody>\n    "

def rowCells01 (ri : Nat) : Nat → List String → String
  | _, [] => ""
  | ci, v :: rest => "<td>" ++ wrapCell01 v ri ci ++ "</td>" ++ rowCells01 ri (ci + 1) rest

def bodyRows01 : Nat → List (List String) → String
  | _, [] => ""
  | ri, row :: rest =>
      "\n    <tr>" ++ rowCells01 ri 0 row ++ "</tr>\n    " ++ bodyRows01 (ri + 1) rest

def tfootFrag01 (f : List String) : String :=
  tfootChunk0 ++ escapeString (f.getD 0 "") ++
  tfootChunk1 ++ escapeString (f.getD 1 "") ++
  tfootChunk2 ++ escapeString (f.getD 2 "") ++
  tfootChunk3 ++ escapeString (f.getD 3 "") ++ tfootChunk4

/-- The full document the single-file `writeHTML` renders. -/
def renderPage01 (h : List String) (rows : List (List String)) (f : List String) : String :=
  chunkA ++ headerVal01 (h.getD 0 "") ++ chunkB ++ headerVal01 (h.getD 1 "") ++
  chunkC ++ headerVal01 (h.getD 2 "") ++ chunkD ++ headerVal01 (h.getD 3 "") ++
  chunkE ++ headerVal01 (h.getD 4 "") ++ chunkF01 ++ headerVal01 (h.getD 5 "") ++
  chunkG ++ headerVal01 (h.getD 6 "") ++ chunkH01 ++ bodyRows01 0 rows ++
  chunkMid ++ tfootFrag01 f ++ chunkTail

/-! ## The decoder of the single-file variant

`parseHTML` there is a verbatim copy of `ParseHTML`: the same helpers and
loops over the same tree type.  The extraction pass is therefore the same
function; `extractPage01` repeats the definition. -/

def extractPage01 (doc : Node) : List String × List (List String) × List String :=
  (fillSlots HeadCount (headerVals HeadCount (collectTh doc) 0),
   fillRows (collectTr false doc),
   fillSlots FootCount (footCells false doc))

/-! ## Supporting lemmas: trimming -/

theorem trimChars_eq_rdropWhile (cs : List Char) :
    trimChars cs = List.rdropWhile isSpaceChar (List.dropWhile isSpaceChar cs) := rfl

theorem dropWhile_rdropWhile_of_dropWhile_eq {p : Char → Bool} {l : List Char}
    (h : List.dropWhile p l = l) :
    List.dropWhile p (List.rdropWhile p l) = List.rdropWhile p l := by
  rcases hr : List.rdropWhile p l with _ | ⟨a, t⟩
  · simp
  · rw [List.dropWhile_cons]
    have hpre : (a :: t) <+: l := hr ▸ List.rdropWhile_prefix p l
    rcases hpre with ⟨u, hu⟩
    have hl : l = a :: (t ++ u) := by rw [← hu]; simp
    have : List.dropWhile p (a :: (t ++ u)) = a :: (t ++ u) := by rw [← hl, h]
    rw [List.dropWhile_cons] at this
    by_cases hpa : p a
    · simp [hpa] at this
      exact absurd (List.dropWhile_suffix p (l := t ++ u)).length_le
        (by rw [this]; simp)
    · simp [hpa]

theorem trimChars_idem (cs : List Char) : trimChars (trimChars cs) = trimChars cs := by
  rw [trimChars_eq_rdropWhile, trimChars_eq_rdropWhile]
  rw [dropWhile_rdropWhile_of_dropWhile_eq (List.dropWhile_idempotent _ _)]
  exact List.rdropWhile_idempotent _ _

theorem trimString_idem (s : String) : trimString (trimString s) = trimString s := by
  unfold trimString
  exact congrArg String.mk (trimChars_idem s.data)

theorem trimString_empty : trimString "" = "" := rfl

/-! ## Supporting lemmas: the lexer -/

theorem lexRun_append (st : LexSt) (a b : List Char) :
    lexRun st (a ++ b) = lexRun (lexRun st a) b :=
  List.foldl_append ..

/-- Emitted tokens only accumulate: a run from any starting token list is the
run from the empty token list, appended. -/
theorem lexRun_shift (cs : List Char) :
    ∀ T m, lexRun (T, m) cs =
      (T ++ (lexRun ([], m) cs).1, (lexRun ([], m) cs).2) := by
  induction cs with
  | nil => intro T m; simp [lexRun]
  | cons c cs ih =>
      intro T m
      have h1 : lexRun (T, m) (c :: cs) =
          lexRun (T ++ (lexStep1 m c).1, (lexStep1 m c).2) cs := rfl
      have h2 : lexRun (([] : List Tok), m) (c :: cs) =
          lexRun (([] : List Tok) ++ (lexStep1 m c).1, (lexStep1 m c).2) cs := rfl
      rw [h1, h2, ih, ih (([] : List Tok) ++ (lexStep1 m c).1)]
      simp

/-- Scanning the escape of a text over the lexer in text mode unescapes it
back: the text accumulator grows by exactly the original characters. -/
theorem lexRun_escape (cs : List Char) :
    ∀ T acc, lexRun (T, .txt acc) (escapeChars cs) = (T, .txt (acc ++ cs)) := by
  induction cs with
  | nil => intro T acc; simp [escapeChars, lexRun]
  | cons c cs ih =>
      intro T acc
      have hsplit : escapeChars (c :: cs) = escapeChar c ++ escapeChars cs := by
        simp [escapeChars]
      rw [hsplit, lexRun_append]
      have hstep : lexRun (T, .txt acc) (escapeChar c) = (T, .txt (acc ++ [c])) := by
        by_cases h1 : c = '&'
        · subst h1
          simp [escapeChar, lexRun, lexStep, lexStep1, entResolve, isEntChar]
        · by_cases h2 : c = '\x27'
          · subst h2
            simp [escapeChar, lexRun, lexStep, lexStep1, entResolve, isEntChar]
          · by_cases h3 : c = '<'
            · subst h3
              simp [escapeChar, lexRun, lexStep, lexStep1, entResolve, isEntChar]
            · by_cases h4 : c = '>'
              · subst h4
                simp [escapeChar, lexRun, lexStep, lexStep1, entResolve, isEntChar]
              · by_cases h5 : c = '"'
                · subst h5
                  simp [escapeChar, lexRun, lexStep, lexStep1, entResolve, isEntChar]
                · simp [escapeChar, h1, h2, h3, h4, h5, lexRun, lexStep, lexStep1]
      rw [hstep, ih]
      simp

/-- Inside a double-quoted attribute value, quote-free characters are
accumulated verbatim. -/
theorem lexRun_atV (cs : List Char) (h : ∀ c ∈ cs, c ≠ '"') :
    ∀ T nm ats an av, lexRun (T, .atV nm ats an av) cs =
      (T, .atV nm ats an (av ++ cs)) := by
  induction cs with
  | nil => intro T nm ats an av; simp [lexRun]
  | cons c cs ih =>
      intro T nm ats an av
      have hc : c ≠ '"' := h c (List.mem_cons_self ..)
      show lexRun (lexStep (T, .atV nm ats an av) c) cs = _
      rw [show lexStep (T, .atV nm ats an av) c = (T, .atV nm ats an (av ++ [c])) from by
        simp [lexStep, lexStep1, hc]]
      rw [ih (fun x hx => h x (List.mem_cons_of_mem _ hx))]
      simp

/-- The decimal digits of a number contain no quote character. -/
theorem natCharsAux_ne_quote : ∀ f n c, c ∈ natCharsAux f n → c ≠ '"' := by
  intro f
  induction f with
  | zero => intro n c hc; simp [natCharsAux] at hc
  | succ f ih =>
      intro n c hc
      rw [natCharsAux] at hc
      by_cases h : n < 10
      · rw [if_pos h] at hc
        interval_cases n <;> simp_all [digCh]
      · rw [if_neg h] at hc
        rcases List.mem_append.mp hc with h1 | h1
        · exact ih _ _ h1
        · have : c = digCh (n % 10) := by simpa using h1
          subst this
          have : n % 10 < 10 := Nat.mod_lt _ (by norm_num)
          interval_cases hm : (n % 10) <;> simp [digCh]

theorem natChars_ne_quote (n : Nat) : ∀ c ∈ natChars n, c ≠ '"' :=
  fun c hc => natCharsAux_ne_quote _ _ c hc

/-! ## Claim C2: column markup selection -/

/-- C2: for every row index `r ≤ 24`, column index `c ≤ 11` and non-empty
cell value `v`, the encoder wraps the escaped value at column 4 in a
`PersonRef` element with `detlnk="dpR{r+1}C5"`, at columns 1 and 10 in a
`PlaceRef` element with `detlnk="dwR{r+1}C{c+1}"`, and at every other
column in a `Mark` element with `ref="R{r+1}C{c+1}"`; the indices are
1-based, and an empty value produces an empty cell with no wrapping
element. -/
theorem c2_column_markup (r c : Nat) (v : String)
    (hr : r ≤ 24) (hc : c ≤ 11) (hv : v ≠ "") :
    (c = 4 → wrapCell v r c =
      "<PersonRef detlnk=\"dpR" ++ natStr (r + 1) ++ "C5\">" ++
        escapeString v ++ "</PersonRef>") ∧
    (c = 1 ∨ c = 10 → wrapCell v r c =
      "<PlaceRef detlnk=\"dwR" ++ natStr (r + 1) ++ "C" ++ natStr (c + 1) ++ "\">" ++
        escapeString v ++ "</PlaceRef>") ∧
    (c ≠ 4 → c ≠ 1 → c ≠ 10 → wrapCell v r c =
      "<Mark ref=\"R" ++ natStr (r + 1) ++ "C" ++ natStr (c + 1) ++ "\">" ++
        escapeString v ++ "</Mark>") ∧
    wrapCell "" r c = "" := by
  refine ⟨?_, ?_, ?_, by simp [wrapCell]⟩
  · rintro rfl
    rw [wrapCell, if_neg hv]
    norm_num
    apply String.ext
    simp [natStr, natChars, natCharsAux, digCh]
  · rintro (rfl | rfl)
    · rw [wrapCell, if_neg hv]
      norm_num
    · rw [wrapCell, if_neg hv]
      norm_num
  · intro h4 h1 h10
    rw [wrapCell, if_neg hv, if_neg h4, if_neg (by simp [h1, h10])]

/-- C2 witness: the wrapping at the concrete boundary positions named by the
claim (rows 0 and 24, columns 0, 1, 4, 10, 11). -/
theorem c2_column_markup_witness :
    wrapCell "Ann" 0 4 = "<PersonRef detlnk=\"dpR1C5\">Ann</PersonRef>" ∧
    wrapCell "Essex" 24 10 = "<PlaceRef detlnk=\"dwR25C11\">Essex</PlaceRef>" ∧
    wrapCell "High St" 0 1 = "<PlaceRef detlnk=\"dwR1C2\">High St</PlaceRef>" ∧
    wrapCell "3" 24 0 = "<Mark ref=\"R25C1\">3</Mark>" ∧
    wrapCell "no" 24 11 = "<Mark ref=\"R25C12\">no</Mark>" ∧
    wrapCell "" 0 0 = "" := by
  have h4 := (c2_column_markup 0 4 "Ann" (by norm_num) (by norm_num) (by decide)).1 rfl
  have h10 := (c2_column_markup 24 10 "Essex" (by norm_num) (by norm_num) (by decide)).2.1
    (Or.inr rfl)
  have h1 := (c2_column_markup 0 1 "High St" (by norm_num) (by norm_num) (by decide)).2.1
    (Or.inl rfl)
  have h0 := (c2_column_markup 24 0 "3" (by norm_num) (by norm_num) (by decide)).2.2.1
    (by decide) (by decide) (by decide)
  have h11 := (c2_column_markup 24 11 "no" (by norm_num) (by norm_num) (by decide)).2.2.1
    (by decide) (by decide) (by decide)
  have he := (c2_column_markup 0 0 "x" (by norm_num) (by norm_num) (by decide)).2.2.2
  refine ⟨?_, ?_, ?_, ?_, ?_, he⟩
  · rw [h4]; decide
  · rw [h10]; decide
  · rw [h1]; decide
  · rw [h0]; decide
  · rw [h11]; decide

/-! ## Claim C9: the duplicated codec cores -/

/-- The all-blank page (the in-memory state at program start). -/
def blankHeader : List String := List.replicate HeadCount ""
def blankRows : List (List String) := List.replicate RowCount (List.replicate FieldCount "")
def blankFoot : List String := List.replicate FootCount ""

set_option maxRecDepth 20000 in
/-- C9 counterexample: the two encoders are not byte-identical — already on
the all-blank page their outputs differ (the fixed template skeletons
disagree: one-table vs two-table layout and the sixth header label). -/
theorem c9_encoders_differ :
    renderPage blankHeader blankRows blankFoot ≠
      renderPage01 blankHeader blankRows blankFoot := by
  decide

/-- C9 (amended): the two decoders are behaviorally identical — the same
extraction function on the parsed tree — and the two encoders share
behaviorally identical cell and header formatters (`wrapCell`, `headerVal`);
the encoded documents themselves differ only through the fixed template
skeletons. -/
theorem c9_cores_equivalent :
    extractPage01 = extractPage ∧ wrapCell01 = wrapCell ∧ headerVal01 = headerVal :=
  ⟨rfl, rfl, rfl⟩

/-! ## Claim C5: header line-break gating -/

/-- The claim's description of one header cell: the trimmed text of the
sibling immediately following the first `br` among the direct children, or
nothing when there is no `br` child. -/
def specThVal (cs : List Node) : Option String :=
  match cs.dropWhile (fun c => !c.isTag "br") with
  | [] => none
  | _ :: rest =>
      some (trimString (match rest.head? with
        | some sib => nodeText sib
        | none => ""))

theorem brVal_eq_spec (cs : List Node) : brVal cs = specThVal cs := by
  induction cs with
  | nil => rfl
  | cons c rest ih =>
      by_cases h : c.isTag "br"
      · simp [brVal, specThVal, h, List.dropWhile_cons]
      · have hdw : List.dropWhile (fun c => !c.isTag "br") (c :: rest) =
            List.dropWhile (fun c => !c.isTag "br") rest := by
          rw [List.dropWhile_cons, if_pos (by simp [h])]
        rw [brVal, if_neg h, ih]
        unfold specThVal
        rw [hdw]

theorem headerVals_eq_take (ths : List Node) : ∀ idx,
    headerVals HeadCount ths idx =
      (ths.filterMap (fun th => brVal th.childList)).take (HeadCount - idx) := by
  induction ths with
  | nil => intro idx; simp [headerVals]
  | cons th rest ih =>
      intro idx
      rw [headerVals]
      by_cases h : HeadCount ≤ idx
      · rw [if_pos h]
        simp [Nat.sub_eq_zero_of_le h]
      · rw [if_neg h]
        rw [List.filterMap_cons]
        cases hbv : brVal th.childList with
        | some v =>
            dsimp only
            have hs : HeadCount - idx = (HeadCount - (idx + 1)) + 1 := by omega
            rw [hs, List.take_succ_cons, ih]
        | none =>
            dsimp only
            rw [ih]

/-- C5: during decode, a `th` with no direct `br` child never consumes a
header slot, whatever text it contains; the header slots are filled, in
document order, with the trimmed text following the first `br` of each
`br`-carrying `th`, stopping after 7 slots. -/
theorem c5_header_gating (doc : Node) :
    (extractPage doc).1 =
      fillSlots HeadCount
        (((collectTh doc).filterMap (fun th => specThVal th.childList)).take HeadCount) ∧
    (∀ cs : List Node, (∀ c ∈ cs, c.isTag "br" = false) → specThVal cs = none) := by
  constructor
  · show fillSlots HeadCount (headerVals HeadCount (collectTh doc) 0) = _
    rw [headerVals_eq_take]
    simp only [brVal_eq_spec, Nat.sub_zero]
  · intro cs h
    rw [specThVal]
    have : cs.dropWhile (fun c => !c.isTag "br") = [] := by
      rw [List.dropWhile_eq_nil_iff]
      intro x hx
      simp [h x hx]
    rw [this]

/-- C5 witness: a `th` holding only text (no `br`) contributes no header
value, checked on a concrete document with one such cell followed by one
`br`-carrying cell. -/
theorem c5_header_gating_witness :
    specThVal [Node.text "Parish label only"] = none ∧
    (extractPage (Node.element "tr" [] [
        Node.element "th" [] [Node.text "Parish label only"],
        Node.element "th" [] [Node.element "br" [] [], Node.text " Witham "]])).1 =
      ["Witham", "", "", "", "", "", ""] := by
  constructor
  · exact (c5_header_gating (Node.text "")).2 [Node.text "Parish label only"]
      (by intro c hc; rw [List.mem_singleton] at hc; subst hc; rfl)
  · rw [(c5_header_gating _).1]
    decide

/-! ## Claim C6: footer colspan exclusion

`walkFooter` prunes: at a `colspan`-carrying `td` inside `tfoot` it returns
without descending, so a value `td` nested below such a cell (e.g. in a
nested table) is skipped even though it is a `tfoot`-descendant `td` without
`colspan`.  The claim's "first 4 tfoot td cells that lack a colspan
attribute" therefore only matches the code when no value `td` is nested
inside an excluded cell. -/

mutual

/-- The `td` nodes `walkFooter` collects (the nodes whose text becomes
`footvals`), in document order. -/
def prunedTds (inT : Bool) : Node → List Node
  | .text _ => []
  | .element tag attrs ch =>
      if tag = "td" && inT then
        if (Node.element tag attrs ch).hasAttr "colspan" then []
        else Node.element tag attrs ch :: prunedTdsList (inT || tag = "tfoot") ch
      else prunedTdsList (inT || tag = "tfoot") ch

def prunedTdsList (inT : Bool) : List Node → List Node
  | [] => []
  | n :: rest => prunedTds inT n ++ prunedTdsList inT rest

end

mutual

/-- Spec-side collection: every `td` with a `tfoot` ancestor, in document
order, with no pruning. -/
def allTfootTds (inT : Bool) : Node → List Node
  | .text _ => []
  | .element tag attrs ch =>
      (if tag = "td" && inT then [Node.element tag attrs ch] else []) ++
        allTfootTdsList (inT || tag = "tfoot") ch

def allTfootTdsList (inT : Bool) : List Node → List Node
  | [] => []
  | n :: rest => allTfootTds inT n ++ allTfootTdsList inT rest

end

mutual

/-- No `td` lacking a `colspan` attribute anywhere in the subtree. -/
def noValueTd : Node → Bool
  | .text _ => true
  | .element tag attrs ch =>
      (!(tag = "td" && !(Node.element tag attrs ch).hasAttr "colspan")) && noValueTdList ch

def noValueTdList : List Node → Bool
  | [] => true
  | n :: rest => noValueTd n && noValueTdList rest

end

mutual

/-- No value `td` hides below an excluded (colspan-carrying, `tfoot`-ancestor)
cell: under this condition pruning and filtering agree. -/
def pruneSafe (inT : Bool) : Node → Bool
  | .text _ => true
  | .element tag attrs ch =>
      if tag = "td" && inT && (Node.element tag attrs ch).hasAttr "colspan" then
        noValueTdList ch
      else pruneSafeList (inT || tag = "tfoot") ch

def pruneSafeList (inT : Bool) : List Node → Bool
  | [] => true
  | n :: rest => pruneSafe inT n && pruneSafeList inT rest

end

mutual

theorem footCells_eq_pruned (inT : Bool) (n : Node) :
    footCells inT n = (prunedTds inT n).map nodeText := by
  match n with
  | .text _ => rfl
  | .element tag attrs ch =>
      rw [footCells, prunedTds]
      by_cases h1 : tag = "td" && inT
      · rw [if_pos h1, if_pos h1]
        by_cases h2 : (Node.element tag attrs ch).hasAttr "colspan"
        · simp only [h2, if_true, List.map_nil]
        · simp only [h2, if_false, Bool.false_eq_true, List.map_cons,
            footCellsList_eq_pruned (inT || tag = "tfoot") ch]
      · rw [if_neg h1, if_neg h1]
        exact footCellsList_eq_pruned (inT || tag = "tfoot") ch

theorem footCellsList_eq_pruned (inT : Bool) (l : List Node) :
    footCellsList inT l = (prunedTdsList inT l).map nodeText := by
  match l with
  | [] => rfl
  | n :: rest =>
      rw [footCellsList, prunedTdsList, List.map_append,
        footCells_eq_pruned inT n, footCellsList_eq_pruned inT rest]

end

mutual

theorem prunedTds_shape (inT : Bool) (n : Node) :
    ∀ x ∈ prunedTds inT n, (x.isTag "td" && !x.hasAttr "colspan") = true := by
  match n with
  | .text _ => intro x hx; simp [prunedTds] at hx
  | .element tag attrs ch =>
      intro x hx
      rw [prunedTds] at hx
      by_cases h1 : tag = "td" && inT
      · rw [if_pos h1] at hx
        by_cases h2 : (Node.element tag attrs ch).hasAttr "colspan"
        · simp [h2] at hx
        · simp only [h2, if_false, Bool.false_eq_true, List.mem_cons] at hx
          rcases hx with rfl | hx
          · simp only [Bool.and_eq_true] at h1
            simp [Node.isTag, h1.1, h2]
          · exact prunedTdsList_shape (inT || tag = "tfoot") ch x hx
      · rw [if_neg h1] at hx
        exact prunedTdsList_shape (inT || tag = "tfoot") ch x hx

theorem prunedTdsList_shape (inT : Bool) (l : List Node) :
    ∀ x ∈ prunedTdsList inT l, (x.isTag "td" && !x.hasAttr "colspan") = true := by
  match l with
  | [] => intro x hx; simp [prunedTdsList] at hx
  | n :: rest =>
      intro x hx
      rw [prunedTdsList, List.mem_append] at hx
      rcases hx with hx | hx
      · exact prunedTds_shape inT n x hx
      · exact prunedTdsList_shape inT rest x hx

end

mutual

theorem noValueTd_filter (n : Node) (inT : Bool) (h : noValueTd n = true) :
    (allTfootTds inT n).filter (fun x => !x.hasAttr "colspan") = [] := by
  match n with
  | .text _ => rfl
  | .element tag attrs ch =>
      rw [noValueTd, Bool.and_eq_true] at h
      rw [allTfootTds, List.filter_append,
        noValueTdList_filter ch (inT || tag = "tfoot") h.2, List.append_nil]
      by_cases h1 : tag = "td" && inT
      · rw [if_pos h1]
        have ht : tag = "td" := by
          rcases Bool.and_eq_true _ _ |>.mp h1 with ⟨ht', _⟩
          simpa using ht'
        have hcs : (Node.element tag attrs ch).hasAttr "colspan" = true := by
          simpa [ht] using h.1
        simp [hcs]
      · rw [if_neg h1]
        rfl

theorem noValueTdList_filter (l : List Node) (inT : Bool) (h : noValueTdList l = true) :
    (allTfootTdsList inT l).filter (fun x => !x.hasAttr "colspan") = [] := by
  match l with
  | [] => rfl
  | n :: rest =>
      rw [noValueTdList, Bool.and_eq_true] at h
      rw [allTfootTdsList, List.filter_append, noValueTd_filter n inT h.1,
        noValueTdList_filter rest inT h.2]
      rfl

end

mutual

theorem prunedTds_eq_filter (inT : Bool) (n : Node) (h : pruneSafe inT n = true) :
    prunedTds inT n = (allTfootTds inT n).filter (fun x => !x.hasAttr "colspan") := by
  match n with
  | .text _ => rfl
  | .element tag attrs ch =>
      rw [pruneSafe] at h
      rw [prunedTds, allTfootTds]
      by_cases h1 : tag = "td" && inT
      · by_cases h2 : (Node.element tag attrs ch).hasAttr "colspan"
        · have hcond : (tag = "td" && inT && (Node.element tag attrs ch).hasAttr "colspan")
              = true := by
            simp only [Bool.and_eq_true] at h1 ⊢
            exact ⟨h1, h2⟩
          rw [if_pos hcond] at h
          rw [if_pos h1, if_pos h2, if_pos h1, List.filter_append,
            noValueTdList_filter ch (inT || tag = "tfoot") h]
          simp [h2]
        · have hcond : ¬((tag = "td" && inT && (Node.element tag attrs ch).hasAttr "colspan")
              = true) := by
            simp only [Bool.and_eq_true]
            rintro ⟨-, hc⟩
            exact h2 hc
          rw [if_neg hcond] at h
          rw [if_pos h1, if_neg h2, if_pos h1, List.filter_append,
            prunedTdsList_eq_filter (inT || tag = "tfoot") ch h]
          simp [h2]
      · have hcond : ¬((tag = "td" && inT && (Node.element tag attrs ch).hasAttr "colspan")
            = true) := by
          simp only [Bool.and_eq_true]
          rintro ⟨hc, -⟩
          exact h1 (Bool.and_eq_true _ _ |>.mpr hc)
        rw [if_neg hcond] at h
        rw [if_neg h1, if_neg h1, List.filter_append,
          prunedTdsList_eq_filter (inT || tag = "tfoot") ch h]
        simp

theorem prunedTdsList_eq_filter (inT : Bool) (l : List Node)
    (h : pruneSafeList inT l = true) :
    prunedTdsList inT l = (allTfootTdsList inT l).filter (fun x => !x.hasAttr "colspan") := by
  match l with
  | [] => rfl
  | n :: rest =>
      rw [pruneSafeList, Bool.and_eq_true] at h
      rw [prunedTdsList, allTfootTdsList, List.filter_append,
        prunedTds_eq_filter inT n h.1, prunedTdsList_eq_filter inT rest h.2]

end

/-- A `tfoot` whose first cell carries `colspan` and contains a nested table
with a value cell `"x"`: the claim's reading assigns `"x"` to footer slot 0,
the code prunes the nested table and assigns nothing. -/
def c6Doc : Node :=
  Node.element "table" [] [
    Node.element "tfoot" [] [
      Node.element "tr" [] [
        Node.element "td" [("colspan", "1")] [
          Node.element "table" [] [
            Node.element "tr" [] [Node.element "td" [] [Node.text "x"]]]]]]]

/-- C6 counterexample: on `c6Doc` the first `tfoot` `td` lacking `colspan`
(in the nested table) has text `"x"`, but decode leaves all footer slots
empty — the slots do not receive the text of the first 4 non-`colspan`
`tfoot` cells. -/
theorem c6_counterexample :
    ((allTfootTds false c6Doc).filter (fun x => !x.hasAttr "colspan")).map nodeText = ["x"] ∧
    (extractPage c6Doc).2.2 = ["", "", "", ""] ∧
    (extractPage c6Doc).2.2 ≠
      fillSlots FootCount
        (((allTfootTds false c6Doc).filter (fun x => !x.hasAttr "colspan")).map nodeText) := by
  exact ⟨by decide, by decide, by decide⟩

/-- C6 (amended): a `colspan`-carrying `td` is never assigned to a footer
slot — every collected footer cell is a `colspan`-free `td` with a `tfoot`
ancestor — and the slots receive, in document order, the extracted text of
the first 4 `tfoot` `td` cells that lack `colspan` **and are not nested
inside a `colspan`-carrying `tfoot` cell** (the decoder skips the whole
subtree of an excluded cell); when no value cell is nested that way
(`pruneSafe`), this coincides with the first 4 non-`colspan` `tfoot` cells
of the claim. -/
theorem c6_footer_colspan (doc : Node) :
    (extractPage doc).2.2 = fillSlots FootCount ((prunedTds false doc).map nodeText) ∧
    (∀ x ∈ prunedTds false doc, (x.isTag "td" && !x.hasAttr "colspan") = true) ∧
    (pruneSafe false doc = true →
      (extractPage doc).2.2 =
        fillSlots FootCount
          (((allTfootTds false doc).filter (fun x => !x.hasAttr "colspan")).map nodeText)) := by
  refine ⟨?_, prunedTds_shape false doc, ?_⟩
  · show fillSlots FootCount (footCells false doc) = _
    rw [footCells_eq_pruned]
  · intro hps
    show fillSlots FootCount (footCells false doc) = _
    rw [footCells_eq_pruned, prunedTds_eq_filter false doc hps]

/-- A well-shaped `tfoot`: label cell with `colspan` first, then two value
cells. -/
def c6WitnessDoc : Node :=
  Node.element "tfoot" [] [Node.element "tr" [] [
    Node.element "td" [("colspan", "2")] [Node.text "Total of Houses..."],
    Node.element "td" [] [Node.text "5"],
    Node.element "td" [] [Node.text "2"]]]

/-- C6 witness: on a well-shaped footer row the label cell is skipped and the
value cells land in slots 0 and 1. -/
theorem c6_footer_colspan_witness :
    pruneSafe false c6WitnessDoc = true ∧
    (extractPage c6WitnessDoc).2.2 = ["5", "2", "", ""] := by
  constructor
  · decide
  · rw [(c6_footer_colspan c6WitnessDoc).2.2 (by decide)]
    decide

/-! ## Claim C7: truncation policy -/

/-- Cell loop characterization: the row takes the text of the first
`fc - ci` `td` children, in order. -/
theorem rowVals_eq_take (fc : Nat) (l : List Node) : ∀ ci,
    rowVals fc l ci = ((l.filter (fun c => c.isTag "td")).take (fc - ci)).map nodeText := by
  induction l with
  | nil => intro ci; simp [rowVals]
  | cons c rest ih =>
      intro ci
      rw [rowVals]
      by_cases h : fc ≤ ci
      · rw [if_pos h]
        simp [Nat.sub_eq_zero_of_le h]
      · rw [if_neg h]
        rw [List.filter_cons]
        by_cases htd : c.isTag "td"
        · simp only [htd, if_true]
          have hs : fc - ci = (fc - (ci + 1)) + 1 := by omega
          rw [hs, List.take_succ_cons, List.map_cons, ih]
        · simp only [htd, Bool.false_eq_true, if_false]
          exact ih ci

/-- C7: on documents with more than 25 `tbody` rows, decode fills the 25 row
slots from the first 25 rows in document order and ignores the rest; each
row uses only its first 12 `td` children, the footer only the first 4
collected cells, and (given a parse) no error is raised. -/
theorem c7_truncation (doc : Node) (h : RowCount < (collectTr false doc).length) :
    (extractPage doc).2.1 =
      ((collectTr false doc).take RowCount).map
        (fun tr => fillSlots FieldCount (rowVals FieldCount tr.childList 0)) ∧
    (∀ tr : Node, rowVals FieldCount tr.childList 0 =
      ((tr.childList.filter (fun c => c.isTag "td")).take FieldCount).map nodeText) ∧
    (extractPage doc).2.2 = fillSlots FootCount ((footCells false doc).take FootCount) ∧
    (∀ s, htmlParse s = some doc → decode (some s) = .ok (extractPage doc)) := by
  refine ⟨?_, ?_, ?_, ?_⟩
  · show fillRows (collectTr false doc) = _
    rw [fillRows]
    have hlen : ((collectTr false doc).take RowCount).length = RowCount := by
      rw [List.length_take]
      omega
    rw [hlen]
    simp
  · intro tr
    rw [rowVals_eq_take, Nat.sub_zero]
  · show fillSlots FootCount (footCells false doc) = _
    rw [fillSlots, fillSlots, List.take_take]
    simp
  · intro s hs
    rw [decode, hs]

/-- A `tbody` with 30 rows, each with one numbered cell. -/
def c7Doc : Node :=
  Node.element "tbody" []
    ((List.range 30).map (fun i =>
      Node.element "tr" [] [Node.element "td" [] [Node.text (natStr i)]]))

/-- C7 witness: the 30-row document of the claim — 30 rows are collected,
only the first 25 populate slots. -/
theorem c7_truncation_witness :
    RowCount < (collectTr false c7Doc).length ∧
    (extractPage c7Doc).2.1 =
      ((collectTr false c7Doc).take RowCount).map
        (fun tr => fillSlots FieldCount (rowVals FieldCount tr.childList 0)) ∧
    (extractPage c7Doc).2.1.length = RowCount := by
  refine ⟨by decide, (c7_truncation c7Doc (by decide)).1, by decide⟩

/-! ## Claim C10: decoded fields are whitespace-trimmed -/

theorem trimmed_of_eq_trim {s : String} (h : ∃ t, s = trimString t) :
    trimString s = s := by
  rcases h with ⟨t, rfl⟩
  exact trimString_idem t

theorem mem_fillSlots {s : String} {k : Nat} {vals : List String}
    (h : s ∈ fillSlots k vals) : s ∈ vals ∨ s = "" := by
  rw [fillSlots, List.mem_append] at h
  rcases h with h | h
  · exact Or.inl (List.mem_of_mem_take h)
  · exact Or.inr (List.eq_of_mem_replicate h)

theorem brVal_trimmed (cs : List Node) (v : String) (h : brVal cs = some v) :
    ∃ t, v = trimString t := by
  induction cs with
  | nil => simp [brVal] at h
  | cons c rest ih =>
      rw [brVal] at h
      by_cases hbr : c.isTag "br"
      · rw [if_pos hbr] at h
        exact ⟨_, (Option.some_injective _ h).symm⟩
      · rw [if_neg hbr] at h
        exact ih h

theorem headerVals_trimmed (hc : Nat) (ths : List Node) : ∀ idx,
    ∀ s ∈ headerVals hc ths idx, ∃ t, s = trimString t := by
  induction ths with
  | nil => intro idx s hs; simp [headerVals] at hs
  | cons th rest ih =>
      intro idx s hs
      rw [headerVals] at hs
      by_cases h : hc ≤ idx
      · rw [if_pos h] at hs
        simp at hs
      · rw [if_neg h] at hs
        cases hbv : brVal th.childList with
        | some v =>
            rw [hbv] at hs
            dsimp only at hs
            rcases List.mem_cons.mp hs with rfl | hs
            · exact brVal_trimmed _ _ hbv
            · exact ih (idx + 1) s hs
        | none =>
            rw [hbv] at hs
            dsimp only at hs
            exact ih idx s hs

/-- C10: every header, body and footer field returned by a successful decode
equals its own whitespace-trim — all text extraction trims, and unmatched
slots hold the (trivially trimmed) empty string. -/
theorem c10_fields_trimmed (doc : Node) :
    (∀ s ∈ (extractPage doc).1, trimString s = s) ∧
    (∀ row ∈ (extractPage doc).2.1, ∀ s ∈ row, trimString s = s) ∧
    (∀ s ∈ (extractPage doc).2.2, trimString s = s) := by
  refine ⟨?_, ?_, ?_⟩
  · intro s hs
    rcases mem_fillSlots hs with h | rfl
    · exact trimmed_of_eq_trim (headerVals_trimmed _ _ _ s h)
    · rfl
  · intro row hrow s hs
    have : row ∈ fillRows (collectTr false doc) := hrow
    rw [fillRows, List.mem_append] at this
    rcases this with h | h
    · obtain ⟨tr, -, htr⟩ := List.mem_map.mp h
      rw [← htr] at hs
      rcases mem_fillSlots hs with h2 | h2
      · rw [rowVals_eq_take] at h2
        obtain ⟨c, -, hc⟩ := List.mem_map.mp h2
        exact trimmed_of_eq_trim ⟨_, hc.symm⟩
      · rw [h2]
        rfl
    · rw [List.eq_of_mem_replicate h] at hs
      rw [List.eq_of_mem_replicate hs]
      rfl
  · intro s hs
    rcases mem_fillSlots hs with h | rfl
    · rw [footCells_eq_pruned] at h
      rcases List.mem_map.mp h with ⟨x, _, rfl⟩
      exact trimmed_of_eq_trim ⟨_, rfl⟩
    · rfl

/-! ## Claim C3: decode error handling -/

theorem fillSlots_length (k : Nat) (v : List String) : (fillSlots k v).length = k := by
  rw [fillSlots]
  simp only [List.length_append, List.length_replicate]
  have : (v.take k).length ≤ k := by
    rw [List.length_take]
    omega
  omega

theorem fillRows_length (trs : List Node) : (fillRows trs).length = RowCount := by
  rw [fillRows]
  simp only [List.length_append, List.length_replicate, List.length_map]
  have : (trs.take RowCount).length ≤ RowCount := by
    rw [List.length_take]
    omega
  omega

theorem fillRows_row_length (trs : List Node) :
    ∀ row ∈ fillRows trs, row.length = FieldCount := by
  intro row hrow
  rw [fillRows, List.mem_append] at hrow
  rcases hrow with h | h
  · obtain ⟨tr, -, htr⟩ := List.mem_map.mp h
    rw [← htr]
    exact fillSlots_length ..
  · rw [List.eq_of_mem_replicate h]
    rfl

/-- C3: decode fails exactly when the input cannot be read (`ReadError`) or
cannot be parsed into a tree at all (`ParseError`); in every other case it
succeeds, returning the fixed-size aggregates of the pure extraction pass
(7 header fields, 25 rows of 12 fields, 4 footer fields, unlocated fields
left empty) — by construction there is no mixed partial-success outcome. -/
theorem c3_decode_errors (input : Option String) :
    (decode input = .error .readError ↔ input = none) ∧
    (decode input = .error .parseError ↔ ∃ s, input = some s ∧ htmlParse s = none) ∧
    (∀ s doc, input = some s → htmlParse s = some doc →
      decode input = .ok (extractPage doc)) ∧
    (∀ h r f, decode input = .ok (h, r, f) →
      h.length = HeadCount ∧ r.length = RowCount ∧
      (∀ row ∈ r, row.length = FieldCount) ∧ f.length = FootCount) := by
  cases input with
  | none =>
      refine ⟨by simp [decode], by simp [decode], by simp, ?_⟩
      intro h r f hok
      simp [decode] at hok
  | some s =>
      cases hp : htmlParse s with
      | none =>
          refine ⟨by simp [decode, hp], ?_, ?_, ?_⟩
          · constructor
            · intro
              exact ⟨s, rfl, hp⟩
            · intro
              simp [decode, hp]
          · intro s' doc hss hdoc
            cases hss
            rw [hdoc] at hp
            cases hp
          · intro h r f hok
            simp [decode, hp] at hok
      | some doc =>
          refine ⟨by simp [decode, hp], ?_, ?_, ?_⟩
          · constructor
            · intro hcontra
              simp [decode, hp] at hcontra
            · rintro ⟨s', hs', hps'⟩
              cases hs'
              rw [hps'] at hp
              cases hp
          · intro s' doc' hss hdoc
            cases hss
            rw [decode, hp]
            rw [hdoc] at hp
            cases hp
            rfl
          · intro h r f hok
            rw [decode, hp] at hok
            cases hok
            exact ⟨fillSlots_length .., fillRows_length _, fillRows_row_length _,
              fillSlots_length ..⟩

/-- C3 witness: the three outcomes at concrete inputs — an unreadable file,
an unparseable content (`"<td"` ends inside a tag), and a well-formed
document returning the fixed-size aggregates. -/
theorem c3_decode_errors_witness :
    decode none = .error .readError ∧
    decode (some "<td") = .error .parseError ∧
    decode (some "<p>hi</p>") =
      .ok (extractPage (Node.element "#document" [] [Node.element "p" [] [Node.text "hi"]])) ∧
    (extractPage (Node.element "#document" [] [Node.element "p" [] [Node.text "hi"]])).1.length
      = HeadCount := by
  have hparse : htmlParse "<td" = none := rfl
  have hdoc : htmlParse "<p>hi</p>" =
      some (Node.element "#document" [] [Node.element "p" [] [Node.text "hi"]]) := rfl
  refine ⟨(c3_decode_errors none).1.mpr rfl,
    (c3_decode_errors (some "<td")).2.1.mpr ⟨"<td", rfl, hparse⟩,
    (c3_decode_errors (some "<p>hi</p>")).2.2.1 "<p>hi</p>" _ rfl hdoc, ?_⟩
  have := ((c3_decode_errors (some "<p>hi</p>")).2.2.2 _ _ _
    ((c3_decode_errors (some "<p>hi</p>")).2.2.1 "<p>hi</p>" _ rfl hdoc)).1
  simpa using this

/-- C10 witness: a concrete document with padded text decodes to trimmed
fields, and each returned field equals its own trim. -/
theorem c10_fields_trimmed_witness :
    (extractPage (Node.element "tbody" [] [Node.element "tr" [] [
        Node.element "td" [] [Node.text "  padded value  "]]])).2.1.head? =
      some (fillSlots FieldCount ["padded value"]) ∧
    trimString "padded value" = "padded value" := by
  constructor
  · decide
  · exact (c10_fields_trimmed (Node.element "tbody" [] [Node.element "tr" [] [
        Node.element "td" [] [Node.text "  padded value  "]]])).2.1
      (fillSlots FieldCount ["padded value"]) (by decide) "padded value" (by decide)



/-! ## Infrastructure for the round-trip proofs: lexing the rendered page

The rendered document is a concatenation of literal template chunks and
escaped field values.  The lexer is run over it compositionally: each
literal chunk's tokens are evaluated once and for all (the `chunk…Toks`
constants and the `lexChunk…` facts below), the symbolic value segments are
handled by `lexRun_escape`/`lexRun_atV`, and `lexRun_shift`/`lexRun_append`
glue the segments together. -/

theorem stringMkData (s : String) : String.mk s.data = s := rfl

theorem dataAppend (a b : String) : (a ++ b).data = a.data ++ b.data := rfl

/-- Plain text (no markup, no entity start) only accumulates. -/
theorem lexRun_plain (cs : List Char) (h : ∀ c ∈ cs, c ≠ '<' ∧ c ≠ '&') :
    ∀ T acc, lexRun (T, .txt acc) cs = (T, .txt (acc ++ cs)) := by
  induction cs with
  | nil => intro T acc; simp [lexRun]
  | cons c rest ih =>
      intro T acc
      obtain ⟨h1, h2⟩ := h c (List.mem_cons_self ..)
      show lexRun (lexStep (T, .txt acc) c) rest = _
      rw [show lexStep (T, .txt acc) c = (T, .txt (acc ++ [c])) from by
        simp [lexStep, lexStep1, h1, h2]]
      rw [ih (fun x hx => h x (List.mem_cons_of_mem _ hx))]
      simp

/-- Running a chunk that starts with `<`: the pending text run is flushed
and the rest of the chunk contributes its own tokens. -/
theorem lexRun_chunk_lt {ck rest : List Char} (hck : ck = '<' :: rest)
    (T : List Tok) (acc : List Char) :
    lexRun (T, .txt acc) ck =
      (T ++ flushTxt acc ++ (lexRun ([], .lt) rest).1, (lexRun ([], .lt) rest).2) := by
  subst hck
  show lexRun (lexStep (T, .txt acc) '<') rest = _
  rw [show lexStep (T, .txt acc) '<' = (T ++ flushTxt acc, .lt) from by
    simp [lexStep, lexStep1]]
  rw [lexRun_shift]

/-- The fixed header labels of `pageTmpl` (the text right before each
header hole). -/
def lbl0 : String := "Parish [or Township] of"
def lbl1 : String := "City or Municipal Borough of"
def lbl2 : String := "Municipal Ward of"
def lbl3 : String := "Parliamentary Borough of"
def lbl4 : String := "Town of"
def lbl5 : String := "Village or Hamlet of"
def lbl6 : String := "Ecclesiastical District of"

/-- Token lists of the literal template chunks (everything after the
leading markup char, lexed from tag-open mode), used to state the chunk
evaluation facts. -/
def chunkAToks : List Tok :=
  [Tok.txt "\n",
 Tok.tagO "html" [("lang", "en")],
 Tok.txt "\n",
 Tok.tagO "head" [],
 Tok.tagO "meta" [("charset", "UTF-8")],
 Tok.tagO "title" [],
 Tok.txt "1861 Census",
 Tok.tagC "title",
 Tok.txt "\n",
 Tok.tagO "style" [],
 Tok.txt
   "\n  .smaller-header \x7b font-size: 8px; \x7d\n  .small-header   \x7b font-size: 10px; \x7d\n  table, th, td   \x7b border: 1px solid black; border-collapse: collapse; \x7d\n  th, td          \x7b padding: 4px; font-size: 12px; \x7d\n  thead th        \x7b background-color: #f0f0f0; \x7d\n",
 Tok.tagC "style",
 Tok.txt "\n",
 Tok.tagC "head",
 Tok.txt "\n",
 Tok.tagO "body" [],
 Tok.txt "\n",
 Tok.txt "\n",
 Tok.tagO "table" [("border", "1"), ("cellspacing", "0"), ("cellpadding", "0")],
 Tok.txt "\n  ",
 Tok.tagO "colgroup" [],
 Tok.tagO "col" [("style", "width:8.33%"), ("span", "7")],
 Tok.tagC "colgroup",
 Tok.txt "\n  ",
 Tok.tagO "thead" [],
 Tok.txt "\n    ",
 Tok.tagO "tr" [],
 Tok.tagO "th" [("colspan", "7"), ("align", "center")],
 Tok.txt "\n      The undermentioned Houses are situate within the Boundaries of the\n    ",
 Tok.tagC "th",
 Tok.tagC "tr",
 Tok.txt "\n    ",
 Tok.tagO "tr" [],
 Tok.txt "\n      ",
 Tok.tagO "th" [("style", "line-height:5em; padding-bottom:2em;")]]

def chunkBToks : List Tok :=
  [Tok.tagC "th",
 Tok.txt "\n      ",
 Tok.tagO "th" [("style", "line-height:5em; padding-bottom:2em;")]]

def chunkCToks : List Tok :=
  [Tok.tagC "th",
 Tok.txt "\n      ",
 Tok.tagO "th" [("style", "line-height:5em; padding-bottom:2em;")]]

def chunkDToks : List Tok :=
  [Tok.tagC "th",
 Tok.txt "\n      ",
 Tok.tagO "th" [("style", "line-height:5em; padding-bottom:2em;")]]

def chunkEToks : List Tok :=
  [Tok.tagC "th",
 Tok.txt "\n      ",
 Tok.tagO "th" [("style", "line-height:5em; padding-bottom:2em;")]]

def chunkFToks : List Tok :=
  [Tok.tagC "th",
 Tok.txt "\n      ",
 Tok.tagO "th" [("style", "line-height:5em; padding-bottom:2em;")]]

def chunkGToks : List Tok :=
  [Tok.tagC "th",
 Tok.txt "\n      ",
 Tok.tagO "th" [("style", "line-height:5em; padding-bottom:2em;")]]

def chunkHToks : List Tok :=
  [Tok.tagC "th",
 Tok.txt "\n    ",
 Tok.tagC "tr",
 Tok.txt "\n    ",
 Tok.tagO "tr" [],
 Tok.txt "\n      ",
 Tok.tagO "th" [("class", "small-header")],
 Tok.txt "Sched. No.",
 Tok.tagC "th",
 Tok.txt "\n      ",
 Tok.tagO "th" [("class", "small-header")],
 Tok.txt "Road, Street, & No. or Name of House",
 Tok.tagC "th",
 Tok.txt "\n      ",
 Tok.tagO "th" [("class", "small-header")],
 Tok.txt "Houses",
 Tok.tagC "th",
 Tok.txt "\n      ",
 Tok.tagO "th" [("class", "smaller-header")],
 Tok.txt "Name & Surname of each Person",
 Tok.tagC "th",
 Tok.txt "\n      ",
 Tok.tagO "th" [("class", "smaller-header")],
 Tok.txt "Relation to Head of Family",
 Tok.tagC "th",
 Tok.txt "\n      ",
 Tok.tagO "th" [("class", "smaller-header")],
 Tok.txt "Condition",
 Tok.tagC "th",
 Tok.txt "\n      ",
 Tok.tagO "th" [("class", "smaller-header")],
 Tok.txt "Age of",
 Tok.tagC "th",
 Tok.txt "\n      ",
 Tok.tagO "th" [("class", "small-header")],
 Tok.txt "Age of",
 Tok.tagC "th",
 Tok.txt "\n      ",
 Tok.tagO "th" [("class", "small-header")],
 Tok.txt "Rank, Profession, or Occupation",
 Tok.tagC "th",
 Tok.txt "\n      ",
 Tok.tagO "th" [("class", "small-header")],
 Tok.txt "Where Born",
 Tok.tagC "th",
 Tok.txt "\n      ",
 Tok.tagO "th" [("class", "small-header")],
 Tok.txt "Whether Blind or Deaf-and-Dumb",
 Tok.tagC "th",
 Tok.txt "\n      ",
 Tok.tagO "th" [("class", "small-header")],
 Tok.tagC "th",
 Tok.txt "\n    ",
 Tok.tagC "tr",
 Tok.txt "\n  ",
 Tok.tagC "thead",
 Tok.txt "\n  ",
 Tok.tagO "tbody" []]

def tfChunk0Toks : List Tok :=
  [Tok.tagO "tfoot" [],
 Tok.txt "\n    ",
 Tok.tagO "tr" [],
 Tok.txt "\n      ",
 Tok.tagO "td" [("colspan", "2"), ("align", "right")],
 Tok.txt "Total of Houses...",
 Tok.tagC "td",
 Tok.txt "\n      ",
 Tok.tagO "td" []]

def tfChunk1Toks : List Tok :=
  [Tok.tagC "td", Tok.txt "\n      ", Tok.tagO "td" []]

def tfChunk2Toks : List Tok :=
  [Tok.tagC "td",
 Tok.txt "\n      ",
 Tok.tagO "td" [("colspan", "3"), ("align", "right")],
 Tok.txt "Total of Males and Females...",
 Tok.tagC "td",
 Tok.txt "\n      ",
 Tok.tagO "td" []]

def tfChunk3Toks : List Tok :=
  [Tok.tagC "td", Tok.txt "\n      ", Tok.tagO "td" []]

def tfChunk4Toks : List Tok :=
  [Tok.tagC "td",
 Tok.txt "\n      ",
 Tok.tagO "td" [("colspan", "2")],
 Tok.tagC "td",
 Tok.tagO "td" [],
 Tok.tagC "td",
 Tok.txt "\n    ",
 Tok.tagC "tr",
 Tok.txt "\n  ",
 Tok.tagC "tfoot"]

def chunkMidToks : List Tok :=
  [Tok.tagC "tbody", Tok.txt "\n  "]

def chunkTailToks : List Tok :=
  [Tok.tagC "table", Tok.txt "\n", Tok.tagC "body", Tok.txt "\n", Tok.tagC "html"]


set_option maxRecDepth 4000 in
theorem lexChunkA : lexRun ([], .lt) chunkA.data.tail = (chunkAToks, .txt lbl0.data) := by decide
theorem lexChunkB : lexRun ([], .lt) chunkB.data.tail = (chunkBToks, .txt lbl1.data) := by decide
theorem lexChunkC : lexRun ([], .lt) chunkC.data.tail = (chunkCToks, .txt lbl2.data) := by decide
theorem lexChunkD : lexRun ([], .lt) chunkD.data.tail = (chunkDToks, .txt lbl3.data) := by decide
theorem lexChunkE : lexRun ([], .lt) chunkE.data.tail = (chunkEToks, .txt lbl4.data) := by decide
theorem lexChunkF : lexRun ([], .lt) chunkF.data.tail = (chunkFToks, .txt lbl5.data) := by decide
theorem lexChunkG : lexRun ([], .lt) chunkG.data.tail = (chunkGToks, .txt lbl6.data) := by decide
set_option maxRecDepth 4000 in
theorem lexChunkH : lexRun ([], .lt) chunkH.data.tail = (chunkHToks, .txt "\n    ".data) := by decide
theorem lexTfChunk0 : lexRun ([], .lt) tfootChunk0.data.tail = (tfChunk0Toks, .txt []) := by decide
theorem lexTfChunk1 : lexRun ([], .lt) tfootChunk1.data.tail = (tfChunk1Toks, .txt []) := by decide
theorem lexTfChunk2 : lexRun ([], .lt) tfootChunk2.data.tail = (tfChunk2Toks, .txt []) := by decide
theorem lexTfChunk3 : lexRun ([], .lt) tfootChunk3.data.tail = (tfChunk3Toks, .txt []) := by decide
theorem lexTfChunk4 : lexRun ([], .lt) tfootChunk4.data.tail = (tfChunk4Toks, .txt []) := by decide
theorem lexChunkMid : lexRun ([], .lt) (chunkMid.data.drop 4) = (chunkMidToks, .txt "\n  ".data) := by decide
theorem lexChunkTail : lexRun ([], .lt) (chunkTail.data.drop 2) = (chunkTailToks, .txt []) := by decide

/-- Tokens contributed by one header hole: nothing for an empty value, a
`br` and the (unescaped-back) text for a non-empty one. -/
def hvToks (v : String) : List Tok :=
  if v = "" then [] else [Tok.tagO "br" [], Tok.txt v]

theorem data_ne_nil {v : String} (hv : v ≠ "") : v.data ≠ [] := by
  intro hd
  apply hv
  cases v
  simp_all

theorem flushTxt_of_ne {v : String} (hv : v ≠ "") : flushTxt v.data = [Tok.txt v] := by
  rw [flushTxt, if_neg (data_ne_nil hv), stringMkData]

/-- One header hole and the literal chunk after it: the pending label text
is flushed, the optional `<br>`+escaped value contributes `hvToks`, and the
chunk contributes its tokens. -/
theorem lexRun_headerCell (v : String) {ck rest : List Char} (hck : ck = '<' :: rest)
    (T : List Tok) (acc : List Char) (hacc : acc ≠ []) :
    lexRun (T, .txt acc) ((headerVal v).data ++ ck) =
      (T ++ [Tok.txt ⟨acc⟩] ++ hvToks v ++ (lexRun ([], .lt) rest).1,
       (lexRun ([], .lt) rest).2) := by
  by_cases hv : v = ""
  · subst hv
    rw [show (headerVal "").data = [] from rfl, List.nil_append,
      lexRun_chunk_lt hck, hvToks]
    rw [show flushTxt acc = [Tok.txt ⟨acc⟩] from by rw [flushTxt, if_neg hacc]]
    simp
  · rw [show (headerVal v).data ++ ck = ['<', 'b', 'r', '>'] ++ ((escapeChars v.data) ++ ck) from by
      rw [headerVal, if_neg hv, dataAppend]
      simp [escapeString]]
    rw [lexRun_append]
    rw [show lexRun (T, .txt acc) ['<', 'b', 'r', '>'] =
        ((((T ++ flushTxt acc) ++ []) ++ []) ++ [Tok.tagO "br" []], .txt []) from rfl]
    rw [lexRun_append, lexRun_escape, List.nil_append, lexRun_chunk_lt hck,
      flushTxt_of_ne hv, hvToks, if_neg hv]
    rw [show flushTxt acc = [Tok.txt ⟨acc⟩] from by rw [flushTxt, if_neg hacc]]
    simp

/-- One footer hole and the literal chunk after it (the value may be
empty, so the flush is kept symbolic). -/
theorem lexRun_valueCell (v : String) {ck rest : List Char} (hck : ck = '<' :: rest)
    (T : List Tok) :
    lexRun (T, .txt []) ((escapeString v).data ++ ck) =
      (T ++ flushTxt v.data ++ (lexRun ([], .lt) rest).1, (lexRun ([], .lt) rest).2) := by
  rw [show (escapeString v).data = escapeChars v.data from rfl, lexRun_append, lexRun_escape,
    List.nil_append, lexRun_chunk_lt hck]

/-- The wrapping element, attribute key and attribute value `wrapCell`
chooses for column `ci` (0-based) at row `ri`. -/
def wrapTag (ci : Nat) : String :=
  if ci = 4 then "PersonRef" else if ci = 1 ∨ ci = 10 then "PlaceRef" else "Mark"

def wrapKey (ci : Nat) : String :=
  if ci = 4 then "detlnk" else if ci = 1 ∨ ci = 10 then "detlnk" else "ref"

def wrapVal (ri ci : Nat) : String :=
  if ci = 4 then "dpR" ++ natStr (ri + 1) ++ "C" ++ natStr (ci + 1)
  else if ci = 1 ∨ ci = 10 then "dwR" ++ natStr (ri + 1) ++ "C" ++ natStr (ci + 1)
  else "R" ++ natStr (ri + 1) ++ "C" ++ natStr (ci + 1)

/-- Tokens of one rendered body cell. -/
def cellToks (ri ci : Nat) (v : String) : List Tok :=
  Tok.tagO "td" [] ::
    ((if v = "" then [] else
      [Tok.tagO (wrapTag ci) [(wrapKey ci, wrapVal ri ci)], Tok.txt v, Tok.tagC (wrapTag ci)]) ++
     [Tok.tagC "td"])

theorem escString_data (v : String) : (escapeString v).data = escapeChars v.data := rfl

/-- Closing a double-quoted attribute value and the tag. -/
theorem lexRun_atV_close (T : List Tok) (nm : List Char)
    (ats : List (String × String)) (an av : List Char) :
    lexRun (T, .atV nm ats an av) ['"', '>'] =
      (T ++ [Tok.tagO ⟨nm⟩ (ats ++ [(⟨an⟩, ⟨av⟩)])], .txt []) := by
  rw [show lexRun (T, .atV nm ats an av) ['"', '>'] =
      ((T ++ []) ++ [Tok.tagO ⟨nm⟩ (ats ++ [(⟨an⟩, ⟨av⟩)])], .txt []) from rfl]
  simp

/-- `String.mk` of an attribute-accumulator equals the `wrapVal` string. -/
theorem wrapVal_eq_person (ri : Nat) :
    (⟨(("dpR".data ++ natChars (ri + 1)) ++ ("C".data ++ (natStr (4 + 1)).data))⟩ : String) =
      wrapVal ri 4 := by
  show String.mk _ = _
  rw [wrapVal, if_pos rfl]
  apply String.ext
  simp [dataAppend, natStr]

theorem wrapVal_eq_place (ri ci : Nat) (h : ci = 1 ∨ ci = 10) :
    (⟨(("dwR".data ++ natChars (ri + 1)) ++ ("C".data ++ (natStr (ci + 1)).data))⟩ : String) =
      wrapVal ri ci := by
  show String.mk _ = _
  have h4 : ¬(ci = 4) := by rcases h with rfl | rfl <;> decide
  rw [wrapVal, if_neg h4, if_pos h]
  apply String.ext
  simp [dataAppend, natStr]

theorem wrapVal_eq_mark (ri ci : Nat) (h4 : ¬(ci = 4)) (h110 : ¬(ci = 1 ∨ ci = 10)) :
    (⟨(("R".data ++ natChars (ri + 1)) ++ ("C".data ++ (natStr (ci + 1)).data))⟩ : String) =
      wrapVal ri ci := by
  show String.mk _ = _
  rw [wrapVal, if_neg h4, if_neg h110]
  apply String.ext
  simp [dataAppend, natStr]

/-- One rendered body cell, lexed: `<td>`, the optional wrapping markup with
the unescaped value, `</td>`. -/
theorem lexRun_cell (ri ci : Nat) (v : String) (T : List Tok) :
    lexRun (T, .txt []) ("<td>" ++ wrapCell v ri ci ++ "</td>").data =
      (T ++ cellToks ri ci v, .txt []) := by
  by_cases hv : v = ""
  · subst hv
    rw [show ("<td>" ++ wrapCell "" ri ci ++ "</td>") = "<td></td>" from by
      rw [wrapCell, if_pos rfl]
      decide]
    rw [lexRun_shift, show lexRun ([], .txt []) "<td></td>".data =
      ([Tok.tagO "td" [], Tok.tagC "td"], .txt []) from by decide]
    rw [cellToks, if_pos rfl]
    simp
  · by_cases h4 : ci = 4
    · subst h4
      rw [show ("<td>" ++ wrapCell v ri 4 ++ "</td>").data =
          ("<td>".data ++ "<PersonRef detlnk=\"dpR".data) ++
            (natChars (ri + 1) ++ (("C".data ++ (natStr (4 + 1)).data) ++
              (['"', '>'] ++ (escapeChars v.data ++
                ('<' :: ("/PersonRef>".data ++ "</td>".data)))))) from by
        rw [wrapCell, if_neg hv]
        norm_num
        simp [dataAppend, escString_data, natStr]]
      rw [lexRun_append, show lexRun (T, .txt [])
            ("<td>".data ++ "<PersonRef detlnk=\"dpR".data) =
          (T ++ [Tok.tagO "td" []],
           .atV "PersonRef".data [] "detlnk".data "dpR".data) from by
        rw [lexRun_shift, show lexRun ([], .txt [])
            ("<td>".data ++ "<PersonRef detlnk=\"dpR".data) =
          ([Tok.tagO "td" []], .atV "PersonRef".data [] "detlnk".data "dpR".data) from by
            decide]]
      have hC5 : ∀ c ∈ ("C".data ++ (natStr (4 + 1)).data), c ≠ '"' := by decide
      rw [lexRun_append, lexRun_atV _ (natChars_ne_quote (ri + 1))]
      rw [lexRun_append, lexRun_atV _ hC5]
      rw [lexRun_append, lexRun_atV_close]
      rw [lexRun_append, lexRun_escape, lexRun_chunk_lt rfl]
      simp only [List.nil_append]
      rw [flushTxt_of_ne hv]
      rw [show lexRun ([], .lt) ("/PersonRef>".data ++ "</td>".data) =
          ([Tok.tagC "PersonRef", Tok.tagC "td"], .txt []) from by decide]
      rw [cellToks, if_neg hv, wrapVal_eq_person ri]
      rw [show wrapTag 4 = "PersonRef" from rfl, show wrapKey 4 = "detlnk" from rfl]
      simp
    · by_cases h110 : ci = 1 ∨ ci = 10
      · rw [show ("<td>" ++ wrapCell v ri ci ++ "</td>").data =
            ("<td>".data ++ "<PlaceRef detlnk=\"dwR".data) ++
              (natChars (ri + 1) ++ (("C".data ++ (natStr (ci + 1)).data) ++
                (['"', '>'] ++ (escapeChars v.data ++
                  ('<' :: ("/PlaceRef>".data ++ "</td>".data)))))) from by
          rw [wrapCell, if_neg hv]
          rw [if_neg (by rcases h110 with rfl | rfl <;> decide),
            if_pos (by rcases h110 with rfl | rfl <;> simp)]
          simp [dataAppend, escString_data, natStr]]
        rw [lexRun_append, show lexRun (T, .txt [])
              ("<td>".data ++ "<PlaceRef detlnk=\"dwR".data) =
            (T ++ [Tok.tagO "td" []],
             .atV "PlaceRef".data [] "detlnk".data "dwR".data) from by
          rw [lexRun_shift, show lexRun ([], .txt [])
              ("<td>".data ++ "<PlaceRef detlnk=\"dwR".data) =
            ([Tok.tagO "td" []], .atV "PlaceRef".data [] "detlnk".data "dwR".data) from by
              decide]]
        have hCq : ∀ c ∈ ("C".data ++ (natStr (ci + 1)).data), c ≠ '"' := by
          intro c hc
          rw [List.mem_append] at hc
          rcases hc with hc | hc
          · rw [show "C".data = ['C'] from rfl, List.mem_singleton] at hc
            subst hc
            decide
          · exact natChars_ne_quote _ c hc
        rw [lexRun_append, lexRun_atV _ (natChars_ne_quote (ri + 1))]
        rw [lexRun_append, lexRun_atV _ hCq]
        rw [lexRun_append, lexRun_atV_close]
        rw [lexRun_append, lexRun_escape, lexRun_chunk_lt rfl]
        simp only [List.nil_append]
        rw [flushTxt_of_ne hv]
        rw [show lexRun ([], .lt) ("/PlaceRef>".data ++ "</td>".data) =
            ([Tok.tagC "PlaceRef", Tok.tagC "td"], .txt []) from by decide]
        rw [cellToks, if_neg hv, wrapVal_eq_place ri ci h110]
        rw [show wrapTag ci = "PlaceRef" from by
          rw [wrapTag, if_neg h4, if_pos h110]]
        rw [show wrapKey ci = "detlnk" from by
          rw [wrapKey, if_neg h4, if_pos h110]]
        simp
      · rw [show ("<td>" ++ wrapCell v ri ci ++ "</td>").data =
            ("<td>".data ++ "<Mark ref=\"R".data) ++
              (natChars (ri + 1) ++ (("C".data ++ (natStr (ci + 1)).data) ++
                (['"', '>'] ++ (escapeChars v.data ++
                  ('<' :: ("/Mark>".data ++ "</td>".data)))))) from by
          rw [wrapCell, if_neg hv, if_neg h4,
            if_neg (by simp only [Bool.or_eq_true, decide_eq_true_eq]; exact h110)]
          simp [dataAppend, escString_data, natStr]]
        rw [lexRun_append, show lexRun (T, .txt [])
              ("<td>".data ++ "<Mark ref=\"R".data) =
            (T ++ [Tok.tagO "td" []],
             .atV "Mark".data [] "ref".data "R".data) from by
          rw [lexRun_shift, show lexRun ([], .txt [])
              ("<td>".data ++ "<Mark ref=\"R".data) =
            ([Tok.tagO "td" []], .atV "Mark".data [] "ref".data "R".data) from by
              decide]]
        have hCq : ∀ c ∈ ("C".data ++ (natStr (ci + 1)).data), c ≠ '"' := by
          intro c hc
          rw [List.mem_append] at hc
          rcases hc with hc | hc
          · rw [show "C".data = ['C'] from rfl, List.mem_singleton] at hc
            subst hc
            decide
          · exact natChars_ne_quote _ c hc
        rw [lexRun_append, lexRun_atV _ (natChars_ne_quote (ri + 1))]
        rw [lexRun_append, lexRun_atV _ hCq]
        rw [lexRun_append, lexRun_atV_close]
        rw [lexRun_append, lexRun_escape, lexRun_chunk_lt rfl]
        simp only [List.nil_append]
        rw [flushTxt_of_ne hv]
        rw [show lexRun ([], .lt) ("/Mark>".data ++ "</td>".data) =
            ([Tok.tagC "Mark", Tok.tagC "td"], .txt []) from by decide]
        rw [cellToks, if_neg hv, wrapVal_eq_mark ri ci h4 h110]
        rw [show wrapTag ci = "Mark" from by
          rw [wrapTag, if_neg h4, if_neg h110]]
        rw [show wrapKey ci = "ref" from by
          rw [wrapKey, if_neg h4, if_neg h110]]
        simp

/-- Tokens of one rendered row's cells. -/
def rowToksF (ri : Nat) : Nat → List String → List Tok
  | _, [] => []
  | ci, v :: rest => cellToks ri ci v ++ rowToksF ri (ci + 1) rest

theorem lexRun_rowCells (ri : Nat) (row : List String) : ∀ ci T,
    lexRun (T, .txt []) (rowCells ri ci row).data = (T ++ rowToksF ri ci row, .txt []) := by
  induction row with
  | nil => intro ci T; simp [rowCells, rowToksF, lexRun]
  | cons v rest ih =>
      intro ci T
      rw [rowCells, dataAppend, lexRun_append, lexRun_cell, ih, rowToksF]
      simp

/-- Tokens of the rendered body rows: the whitespace run between consecutive
rows (and before the first one) merges into a single text token. -/
def rowsToksF : Nat → List (List String) → List Tok
  | _, [] => []
  | ri, row :: rest =>
      Tok.txt "\n    \n    " :: Tok.tagO "tr" [] ::
        (rowToksF ri 0 row ++ (Tok.tagC "tr" :: rowsToksF (ri + 1) rest))

theorem lexRun_bodyRows (rows : List (List String)) : ∀ ri T,
    lexRun (T, .txt "\n    ".data) (bodyRows ri rows).data =
      (T ++ rowsToksF ri rows, .txt "\n    ".data) := by
  induction rows with
  | nil => intro ri T; simp [bodyRows, rowsToksF, lexRun]
  | cons row rest ih =>
      intro ri T
      have hA : ∀ T' : List Tok, lexRun (T', .txt "\n    ".data) "\n    <tr>".data =
          (T' ++ [Tok.txt "\n    \n    ", Tok.tagO "tr" []], .txt []) := by
        intro T'
        rw [show "\n    <tr>".data = "\n    ".data ++ ('<' :: "tr>".data) from by decide]
        rw [lexRun_append, lexRun_plain _ (by decide), lexRun_chunk_lt rfl]
        rw [show lexRun ([], .lt) "tr>".data = ([Tok.tagO "tr" []], .txt []) from by decide]
        rw [show flushTxt ("\n    ".data ++ "\n    ".data) = [Tok.txt "\n    \n    "] from by
          decide]
        simp
      have hC : ∀ T' : List Tok, lexRun (T', .txt []) "</tr>\n    ".data =
          (T' ++ [Tok.tagC "tr"], .txt "\n    ".data) := by
        intro T'
        rw [lexRun_chunk_lt (show "</tr>\n    ".data = '<' :: "/tr>\n    ".data from by decide)]
        rw [show lexRun ([], .lt) "/tr>\n    ".data = ([Tok.tagC "tr"], .txt "\n    ".data) from by
          decide]
        rw [show flushTxt [] = [] from rfl]
        simp
      rw [bodyRows, dataAppend, dataAppend, dataAppend, lexRun_append, lexRun_append,
        lexRun_append, hA, lexRun_rowCells, hC, ih, rowsToksF]
      simp

/-- The token stream of the full rendered page. -/
def pageToks (h : List String) (rows : List (List String)) (f : List String) : List Tok :=
  chunkAToks ++ [Tok.txt lbl0] ++ hvToks (h.getD 0 "") ++
  chunkBToks ++ [Tok.txt lbl1] ++ hvToks (h.getD 1 "") ++
  chunkCToks ++ [Tok.txt lbl2] ++ hvToks (h.getD 2 "") ++
  chunkDToks ++ [Tok.txt lbl3] ++ hvToks (h.getD 3 "") ++
  chunkEToks ++ [Tok.txt lbl4] ++ hvToks (h.getD 4 "") ++
  chunkFToks ++ [Tok.txt lbl5] ++ hvToks (h.getD 5 "") ++
  chunkGToks ++ [Tok.txt lbl6] ++ hvToks (h.getD 6 "") ++
  chunkHToks ++ rowsToksF 0 rows ++
  [Tok.txt "\n    \n  "] ++ chunkMidToks ++
  [Tok.txt "\n  "] ++ tfChunk0Toks ++ flushTxt (f.getD 0 "").data ++
  tfChunk1Toks ++ flushTxt (f.getD 1 "").data ++
  tfChunk2Toks ++ flushTxt (f.getD 2 "").data ++
  tfChunk3Toks ++ flushTxt (f.getD 3 "").data ++
  tfChunk4Toks ++ [Tok.txt "\n"] ++ chunkTailToks

theorem flushTxt_nil : flushTxt [] = [] := rfl

set_option maxRecDepth 8000 in
/-- The lexer on the full rendered page: every literal chunk contributes its
evaluated tokens and every hole its value tokens. -/
theorem lex_renderPage (h : List String) (rows : List (List String)) (f : List String) :
    lex (renderPage h rows f) = some (pageToks h rows f) := by
  have hsplit : (renderPage h rows f).data =
      chunkA.data ++
      (((headerVal (h.getD 0 "")).data ++ chunkB.data) ++
      (((headerVal (h.getD 1 "")).data ++ chunkC.data) ++
      (((headerVal (h.getD 2 "")).data ++ chunkD.data) ++
      (((headerVal (h.getD 3 "")).data ++ chunkE.data) ++
      (((headerVal (h.getD 4 "")).data ++ chunkF.data) ++
      (((headerVal (h.getD 5 "")).data ++ chunkG.data) ++
      (((headerVal (h.getD 6 "")).data ++ chunkH.data) ++
      ((bodyRows 0 rows).data ++
      (chunkMid.data ++
      (tfootChunk0.data ++
      (((escapeString (f.getD 0 "")).data ++ tfootChunk1.data) ++
      (((escapeString (f.getD 1 "")).data ++ tfootChunk2.data) ++
      (((escapeString (f.getD 2 "")).data ++ tfootChunk3.data) ++
      (((escapeString (f.getD 3 "")).data ++ tfootChunk4.data) ++
      chunkTail.data)))))))))))))) := by
    simp [renderPage, tfootFrag, dataAppend, List.append_assoc]
  have hMid : ∀ T' : List Tok, lexRun (T', .txt "\n    ".data) chunkMid.data =
      (T' ++ [Tok.txt "\n    \n  "] ++ chunkMidToks, .txt "\n  ".data) := by
    intro T'
    rw [show chunkMid.data = "\n  ".data ++ ('<' :: chunkMid.data.drop 4) from by decide]
    rw [lexRun_append, lexRun_plain _ (by decide), lexRun_chunk_lt rfl, lexChunkMid]
    rw [show flushTxt ("\n    ".data ++ "\n  ".data) = [Tok.txt "\n    \n  "] from by decide]
  have hTf0 : ∀ T' : List Tok, lexRun (T', .txt "\n  ".data) tfootChunk0.data =
      (T' ++ [Tok.txt "\n  "] ++ tfChunk0Toks, .txt []) := by
    intro T'
    rw [lexRun_chunk_lt (show tfootChunk0.data = '<' :: tfootChunk0.data.tail from by decide),
      lexTfChunk0]
    rw [show flushTxt "\n  ".data = [Tok.txt "\n  "] from by decide]
  have hTail : ∀ T' : List Tok, lexRun (T', .txt []) chunkTail.data =
      (T' ++ [Tok.txt "\n"] ++ chunkTailToks, .txt []) := by
    intro T'
    rw [show chunkTail.data = "\n".data ++ ('<' :: chunkTail.data.drop 2) from by decide]
    rw [lexRun_append, lexRun_plain _ (by decide), lexRun_chunk_lt rfl, lexChunkTail]
    rw [show flushTxt ([] ++ "\n".data) = [Tok.txt "\n"] from by decide]
  rw [lex, hsplit]
  rw [lexRun_append]
  rw [show lexRun (([] : List Tok), .txt []) chunkA.data = (chunkAToks, .txt lbl0.data) from by
    rw [lexRun_chunk_lt (show chunkA.data = '<' :: chunkA.data.tail from by decide), lexChunkA]
    rw [show flushTxt ([] : List Char) = [] from rfl]
    simp]
  rw [lexRun_append,
    lexRun_headerCell _ (show chunkB.data = '<' :: chunkB.data.tail from by decide) _ _
      (by decide), lexChunkB]
  rw [lexRun_append,
    lexRun_headerCell _ (show chunkC.data = '<' :: chunkC.data.tail from by decide) _ _
      (by decide), lexChunkC]
  rw [lexRun_append,
    lexRun_headerCell _ (show chunkD.data = '<' :: chunkD.data.tail from by decide) _ _
      (by decide), lexChunkD]
  rw [lexRun_append,
    lexRun_headerCell _ (show chunkE.data = '<' :: chunkE.data.tail from by decide) _ _
      (by decide), lexChunkE]
  rw [lexRun_append,
    lexRun_headerCell _ (show chunkF.data = '<' :: chunkF.data.tail from by decide) _ _
      (by decide), lexChunkF]
  rw [lexRun_append,
    lexRun_headerCell _ (show chunkG.data = '<' :: chunkG.data.tail from by decide) _ _
      (by decide), lexChunkG]
  rw [lexRun_append,
    lexRun_headerCell _ (show chunkH.data = '<' :: chunkH.data.tail from by decide) _ _
      (by decide), lexChunkH]
  rw [lexRun_append, lexRun_bodyRows]
  rw [lexRun_append, hMid]
  rw [lexRun_append, hTf0]
  rw [lexRun_append,
    lexRun_valueCell _ (show tfootChunk1.data = '<' :: tfootChunk1.data.tail from by decide),
    lexTfChunk1]
  rw [lexRun_append,
    lexRun_valueCell _ (show tfootChunk2.data = '<' :: tfootChunk2.data.tail from by decide),
    lexTfChunk2]
  rw [lexRun_append,
    lexRun_valueCell _ (show tfootChunk3.data = '<' :: tfootChunk3.data.tail from by decide),
    lexTfChunk3]
  rw [lexRun_append,
    lexRun_valueCell _ (show tfootChunk4.data = '<' :: tfootChunk4.data.tail from by decide),
    lexTfChunk4]
  rw [hTail]
  simp [lexEnd, flushTxt_nil, pageToks, stringMkData, List.append_assoc]

/-! ## Building the document tree from the token stream

`GP g ns` states that the balanced token group `g` appends exactly the
nodes `ns` to the builder's current sibling list, whatever the surrounding
state — the compositional building block for assembling the parsed page. -/

def brun (st : List Node × BStack) (ts : List Tok) : Option (List Node × BStack) :=
  ts.foldlM bstep st

theorem buildDoc_eq (ts : List Tok) :
    buildDoc ts = (brun ([], []) ts).bind (fun st =>
      match st with
      | (acc, []) => some (Node.element "#document" [] acc)
      | _ => none) := rfl

theorem brun_nil (st : List Node × BStack) : brun st [] = some st := rfl

theorem brun_cons (st : List Node × BStack) (t : Tok) (ts : List Tok) :
    brun st (t :: ts) = (bstep st t).bind (fun st' => brun st' ts) := rfl

theorem brun_append (a : List Tok) : ∀ (st : List Node × BStack) (b : List Tok),
    brun st (a ++ b) = (brun st a).bind (fun st' => brun st' b) := by
  induction a with
  | nil =>
      intro st b
      rw [List.nil_append, brun_nil, Option.some_bind]
  | cons t ts ih =>
      intro st b
      rw [List.cons_append, brun_cons, brun_cons]
      cases hb : bstep st t with
      | none => rfl
      | some st1 =>
          rw [Option.some_bind, Option.some_bind, ih]

/-- A balanced token group appends its nodes to any surrounding state. -/
def GP (g : List Tok) (ns : List Node) : Prop :=
  ∀ acc stk, brun (acc, stk) g = some (acc ++ ns, stk)

/-! ### The frame lemma

A token list that builds to completion from the empty state is balanced, so
running it inside any surrounding state just appends its nodes: any state of
the bare run is mapped into the framed run by attaching the outer siblings
to the bottom stack frame (or to the node list if the stack is empty) and
stacking the outer frames below. -/

def frStk (acc : List Node) (stk : BStack) : BStack → BStack
  | [] => stk
  | [(t, a, sib)] => (t, a, acc ++ sib) :: stk
  | f :: g :: rest => f :: frStk acc stk (g :: rest)

def fr (acc : List Node) (stk : BStack) : List Node × BStack → List Node × BStack
  | (a, []) => (acc ++ a, stk)
  | (a, f :: s) => (a, frStk acc stk (f :: s))

theorem fr_nilStack (acc : List Node) (stk : BStack) (a : List Node) :
    fr acc stk (a, []) = (acc ++ a, stk) := rfl

theorem fr_consStack (acc : List Node) (stk : BStack) (a : List Node)
    (f : String × List (String × String) × List Node) (s : BStack) :
    fr acc stk (a, f :: s) = (a, frStk acc stk (f :: s)) := rfl

theorem frStk_one (acc : List Node) (stk : BStack) (t : String)
    (at_ : List (String × String)) (sib : List Node) :
    frStk acc stk [(t, at_, sib)] = (t, at_, acc ++ sib) :: stk := rfl

theorem frStk_two (acc : List Node) (stk : BStack)
    (f g : String × List (String × String) × List Node) (rest : BStack) :
    frStk acc stk (f :: g :: rest) = f :: frStk acc stk (g :: rest) := rfl

theorem bstep_fr (acc : List Node) (stk : BStack) (st st' : List Node × BStack) (t : Tok)
    (h : bstep st t = some st') :
    bstep (fr acc stk st) t = some (fr acc stk st') := by
  obtain ⟨a, s⟩ := st
  cases t with
  | txt x =>
      rw [bstep] at h
      cases h
      cases s with
      | nil =>
          rw [fr_nilStack, bstep, fr_nilStack, List.append_assoc]
      | cons f s' =>
          rw [fr_consStack, bstep, fr_consStack]
  | tagO tg at_ =>
      by_cases hv : voidTag tg = true
      · rw [bstep, if_pos hv] at h
        cases h
        cases s with
        | nil =>
            rw [fr_nilStack, bstep, if_pos hv, fr_nilStack, List.append_assoc]
        | cons f s' =>
            rw [fr_consStack, bstep, if_pos hv, fr_consStack]
      · rw [bstep, if_neg hv] at h
        cases h
        cases s with
        | nil =>
            rw [fr_nilStack, bstep, if_neg hv, fr_consStack, frStk_one]
        | cons f s' =>
            rw [fr_consStack, bstep, if_neg hv, fr_consStack, frStk_two]
  | tagC tg =>
      cases s with
      | nil =>
          rw [bstep] at h
          cases h
      | cons f s' =>
          obtain ⟨t0, a0, sib⟩ := f
          rw [bstep] at h
          by_cases ht : t0 = tg
          · rw [if_pos ht] at h
            cases h
            cases s' with
            | nil =>
                rw [fr_consStack, frStk_one, bstep, if_pos ht, fr_nilStack,
                  List.append_assoc]
            | cons f2 s2 =>
                rw [fr_consStack, frStk_two, bstep, if_pos ht, fr_consStack]
          · rw [if_neg ht] at h
            cases h

theorem brun_fr (g : List Tok) : ∀ st st' (acc : List Node) (stk : BStack),
    brun st g = some st' → brun (fr acc stk st) g = some (fr acc stk st') := by
  induction g with
  | nil =>
      intro st st' acc stk h
      rw [brun_nil] at h
      cases h
      exact brun_nil _
  | cons t ts ih =>
      intro st st' acc stk h
      rw [brun_cons] at h
      cases hb : bstep st t with
      | none => rw [hb] at h; cases h
      | some st1 =>
          rw [hb, Option.some_bind] at h
          rw [brun_cons, bstep_fr acc stk st st1 t hb, Option.some_bind]
          exact ih st1 st' acc stk h

/-- A token list that builds to completion from the empty state forms a
balanced group. -/
theorem gp_of_closed {g : List Tok} {ns : List Node}
    (h : brun ([], []) g = some (ns, [])) : GP g ns := by
  intro acc stk
  have := brun_fr g ([], []) (ns, []) acc stk h
  rw [fr_nilStack, fr_nilStack] at this
  simpa using this

/-! ### Group combinators -/

theorem gp_nil : GP [] [] := by
  intro acc stk
  rw [brun_nil, List.append_nil]

theorem gp_append {g1 n1 g2 n2} (h1 : GP g1 n1) (h2 : GP g2 n2) :
    GP (g1 ++ g2) (n1 ++ n2) := by
  intro acc stk
  rw [brun_append, h1, Option.some_bind, h2, List.append_assoc]

theorem gp_txt (s : String) : GP [Tok.txt s] [Node.text s] := by
  intro acc stk
  rw [brun_cons, bstep, Option.some_bind, brun_nil]

theorem gp_void (t : String) (a : List (String × String)) (hv : voidTag t = true) :
    GP [Tok.tagO t a] [Node.element t a []] := by
  intro acc stk
  rw [brun_cons, bstep, if_pos hv, Option.some_bind, brun_nil]

theorem gp_el (t : String) (a : List (String × String)) (hv : voidTag t = false)
    {g ns} (hg : GP g ns) :
    GP (Tok.tagO t a :: (g ++ [Tok.tagC t])) [Node.element t a ns] := by
  intro acc stk
  rw [brun_cons, bstep, if_neg (by simp [hv]), Option.some_bind, brun_append, hg,
    Option.some_bind, List.nil_append, brun_cons, bstep, if_pos rfl, Option.some_bind,
    brun_nil]

/-- Text nodes produced by a flushed (possibly empty) text run. -/
def txtNodes (s : List Char) : List Node :=
  if s = [] then [] else [Node.text ⟨s⟩]

theorem gp_flush (s : List Char) : GP (flushTxt s) (txtNodes s) := by
  by_cases h : s = []
  · rw [flushTxt, if_pos h, txtNodes, if_pos h]
    exact gp_nil
  · rw [flushTxt, if_neg h, txtNodes, if_neg h]
    exact gp_txt _

/-- Children contributed by one header hole. -/
def brValNodes (v : String) : List Node :=
  if v = "" then [] else [Node.element "br" [] [], Node.text v]

theorem gp_hv (v : String) : GP (hvToks v) (brValNodes v) := by
  by_cases h : v = ""
  · rw [hvToks, if_pos h, brValNodes, if_pos h]
    exact gp_nil
  · rw [hvToks, if_neg h, brValNodes, if_neg h]
    exact gp_append (gp_void "br" [] rfl) (gp_txt v)

/-- One rendered header cell (label, optional break + value). -/
def thStyleAttrs : List (String × String) := [("style", "line-height:5em; padding-bottom:2em;")]

def thToks (lbl v : String) : List Tok :=
  Tok.tagO "th" thStyleAttrs :: ((Tok.txt lbl :: hvToks v) ++ [Tok.tagC "th"])

def thNode (lbl v : String) : Node :=
  Node.element "th" thStyleAttrs (Node.text lbl :: brValNodes v)

theorem gp_th (lbl v : String) : GP (thToks lbl v) [thNode lbl v] :=
  gp_el "th" thStyleAttrs rfl (gp_append (gp_txt lbl) (gp_hv v))

/-- One rendered footer value cell. -/
def fvToks (v : String) : List Tok :=
  Tok.tagO "td" [] :: (flushTxt v.data ++ [Tok.tagC "td"])

def fvNode (v : String) : Node :=
  Node.element "td" [] (txtNodes v.data)

theorem gp_fv (v : String) : GP (fvToks v) [fvNode v] :=
  gp_el "td" [] rfl (gp_flush v.data)

/-- One rendered body cell as a tree node. -/
def tdNode (ri ci : Nat) (v : String) : Node :=
  Node.element "td" []
    (if v = "" then [] else
      [Node.element (wrapTag ci) [(wrapKey ci, wrapVal ri ci)] [Node.text v]])

theorem voidTag_wrapTag (ci : Nat) : voidTag (wrapTag ci) = false := by
  rw [wrapTag]
  split
  · rfl
  split
  · rfl
  · rfl

theorem gp_cell_nodes (ri ci : Nat) (v : String) :
    GP (cellToks ri ci v) [tdNode ri ci v] := by
  rw [cellToks, tdNode]
  by_cases h : v = ""
  · rw [if_pos h, if_pos h]
    exact gp_el "td" [] rfl gp_nil
  · rw [if_neg h, if_neg h]
    exact gp_el "td" [] rfl
      (gp_el (wrapTag ci) [(wrapKey ci, wrapVal ri ci)] (voidTag_wrapTag ci) (gp_txt v))

/-- One rendered row's cells as tree nodes. -/
def rowCellNodes (ri : Nat) : Nat → List String → List Node
  | _, [] => []
  | ci, v :: rest => tdNode ri ci v :: rowCellNodes ri (ci + 1) rest

theorem gp_rowCells_nodes (ri : Nat) (row : List String) : ∀ ci,
    GP (rowToksF ri ci row) (rowCellNodes ri ci row) := by
  induction row with
  | nil => intro ci; rw [rowToksF, rowCellNodes]; exact gp_nil
  | cons v rest ih =>
      intro ci
      rw [rowToksF, rowCellNodes]
      exact gp_append (gp_cell_nodes ri ci v) (ih (ci + 1))

/-- The rendered body rows as tree nodes (each row preceded by the merged
whitespace text node). -/
def rowsNodes : Nat → List (List String) → List Node
  | _, [] => []
  | ri, row :: rest =>
      Node.text "\n    \n    " :: Node.element "tr" [] (rowCellNodes ri 0 row) ::
        rowsNodes (ri + 1) rest

theorem gp_rows_nodes (rows : List (List String)) : ∀ ri,
    GP (rowsToksF ri rows) (rowsNodes ri rows) := by
  induction rows with
  | nil => intro ri; rw [rowsToksF, rowsNodes]; exact gp_nil
  | cons row rest ih =>
      intro ri
      rw [rowsToksF, rowsNodes]
      have h1 := gp_append (gp_txt "\n    \n    ")
        (gp_append (gp_el "tr" [] rfl (gp_rowCells_nodes ri row 0)) (ih (ri + 1)))
      convert h1 using 2
      simp

/-! ### The parsed page tree -/

def cssText : String :=
  "\n  .smaller-header \x7b font-size: 8px; \x7d\n  .small-header   \x7b font-size: 10px; \x7d\n  table, th, td   \x7b border: 1px solid black; border-collapse: collapse; \x7d\n  th, td          \x7b padding: 4px; font-size: 12px; \x7d\n  thead th        \x7b background-color: #f0f0f0; \x7d\n"

def headNode : Node :=
  Node.element "head" []
    [Node.element "meta" [("charset", "UTF-8")] [],
     Node.element "title" [] [Node.text "1861 Census"],
     Node.text "\n",
     Node.element "style" [] [Node.text cssText],
     Node.text "\n"]

def tr1Node : Node :=
  Node.element "tr" []
    [Node.element "th" [("colspan", "7"), ("align", "center")]
      [Node.text "\n      The undermentioned Houses are situate within the Boundaries of the\n    "]]

def tr2Node (h : List String) : Node :=
  Node.element "tr" []
    [Node.text "\n      ", thNode lbl0 (h.getD 0 ""),
     Node.text "\n      ", thNode lbl1 (h.getD 1 ""),
     Node.text "\n      ", thNode lbl2 (h.getD 2 ""),
     Node.text "\n      ", thNode lbl3 (h.getD 3 ""),
     Node.text "\n      ", thNode lbl4 (h.getD 4 ""),
     Node.text "\n      ", thNode lbl5 (h.getD 5 ""),
     Node.text "\n      ", thNode lbl6 (h.getD 6 ""),
     Node.text "\n    "]

def tr3Node : Node :=
  Node.element "tr" []
    [Node.text "\n      ",
     Node.element "th" [("class", "small-header")] [Node.text "Sched. No."],
     Node.text "\n      ",
     Node.element "th" [("class", "small-header")] [Node.text "Road, Street, & No. or Name of House"],
     Node.text "\n      ",
     Node.element "th" [("class", "small-header")] [Node.text "Houses"],
     Node.text "\n      ",
     Node.element "th" [("class", "smaller-header")] [Node.text "Name & Surname of each Person"],
     Node.text "\n      ",
     Node.element "th" [("class", "smaller-header")] [Node.text "Relation to Head of Family"],
     Node.text "\n      ",
     Node.element "th" [("class", "smaller-header")] [Node.text "Condition"],
     Node.text "\n      ",
     Node.element "th" [("class", "smaller-header")] [Node.text "Age of"],
     Node.text "\n      ",
     Node.element "th" [("class", "small-header")] [Node.text "Age of"],
     Node.text "\n      ",
     Node.element "th" [("class", "small-header")] [Node.text "Rank, Profession, or Occupation"],
     Node.text "\n      ",
     Node.element "th" [("class", "small-header")] [Node.text "Where Born"],
     Node.text "\n      ",
     Node.element "th" [("class", "small-header")] [Node.text "Whether Blind or Deaf-and-Dumb"],
     Node.text "\n      ",
     Node.element "th" [("class", "small-header")] [],
     Node.text "\n    "]

def colgroupNode : Node :=
  Node.element "colgroup" []
    [Node.element "col" [("style", "width:8.33%"), ("span", "7")] []]

def theadNode (h : List String) : Node :=
  Node.element "thead" []
    [Node.text "\n    ", tr1Node, Node.text "\n    ", tr2Node h,
     Node.text "\n    ", tr3Node, Node.text "\n  "]

def tbodyNode (rows : List (List String)) : Node :=
  Node.element "tbody" [] (rowsNodes 0 rows ++ [Node.text "\n    \n  "])

def tfootTrNode (f : List String) : Node :=
  Node.element "tr" []
    [Node.text "\n      ",
     Node.element "td" [("colspan", "2"), ("align", "right")] [Node.text "Total of Houses..."],
     Node.text "\n      ", fvNode (f.getD 0 ""),
     Node.text "\n      ", fvNode (f.getD 1 ""),
     Node.text "\n      ",
     Node.element "td" [("colspan", "3"), ("align", "right")] [Node.text "Total of Males and Females..."],
     Node.text "\n      ", fvNode (f.getD 2 ""),
     Node.text "\n      ", fvNode (f.getD 3 ""),
     Node.text "\n      ",
     Node.element "td" [("colspan", "2")] [],
     Node.element "td" [] [],
     Node.text "\n    "]

def tfootNode (f : List String) : Node :=
  Node.element "tfoot" []
    [Node.text "\n    ", tfootTrNode f, Node.text "\n  "]

def tableNode (h : List String) (rows : List (List String)) (f : List String) : Node :=
  Node.element "table" [("border", "1"), ("cellspacing", "0"), ("cellpadding", "0")]
    [Node.text "\n  ", colgroupNode, Node.text "\n  ", theadNode h,
     Node.text "\n  ", tbodyNode rows, Node.text "\n  ", Node.text "\n  ",
     tfootNode f, Node.text "\n"]

def bodyNode (h : List String) (rows : List (List String)) (f : List String) : Node :=
  Node.element "body" []
    [Node.text "\n", Node.text "\n", tableNode h rows f, Node.text "\n"]

def htmlNode (h : List String) (rows : List (List String)) (f : List String) : Node :=
  Node.element "html" [("lang", "en")]
    [Node.text "\n", headNode, Node.text "\n", bodyNode h rows f, Node.text "\n"]

/-- The tree the modelled HTML parser produces on the rendered page. -/
def pageTree (h : List String) (rows : List (List String)) (f : List String) : Node :=
  Node.element "#document" [] [Node.text "\n", htmlNode h rows f]

/-- Transport a group property along an equality of token lists. -/
theorem gp_congr {g1 g2 : List Tok} {ns : List Node} (h : g1 = g2) (p : GP g1 ns) :
    GP g2 ns := h ▸ p

set_option maxRecDepth 4000 in
set_option maxHeartbeats 3200000 in
/-- The token stream of the rendered page builds exactly the page tree's
top-level nodes. -/
theorem gp_pageToks (h : List String) (rows : List (List String)) (f : List String) :
    GP (pageToks h rows f) [Node.text "\n", htmlNode h rows f] := by
  have gpHead : GP _ [headNode] :=
    gp_el "head" [] rfl
      (gp_append (gp_void "meta" [("charset", "UTF-8")] rfl)
        (gp_append (gp_el "title" [] rfl (gp_txt "1861 Census"))
          (gp_append (gp_txt "\n")
            (gp_append (gp_el "style" [] rfl (gp_txt cssText)) (gp_txt "\n")))))
  have gpTr1 : GP _ [tr1Node] :=
    gp_el "tr" [] rfl
      (gp_el "th" [("colspan", "7"), ("align", "center")] rfl
        (gp_txt "\n      The undermentioned Houses are situate within the Boundaries of the\n    "))
  have gpTr2 : GP _ [tr2Node h] :=
    gp_el "tr" [] rfl
      (gp_append (gp_txt "\n      ")
        (gp_append (gp_th lbl0 (h.getD 0 ""))
          (gp_append (gp_txt "\n      ")
            (gp_append (gp_th lbl1 (h.getD 1 ""))
              (gp_append (gp_txt "\n      ")
                (gp_append (gp_th lbl2 (h.getD 2 ""))
                  (gp_append (gp_txt "\n      ")
                    (gp_append (gp_th lbl3 (h.getD 3 ""))
                      (gp_append (gp_txt "\n      ")
                        (gp_append (gp_th lbl4 (h.getD 4 ""))
                          (gp_append (gp_txt "\n      ")
                            (gp_append (gp_th lbl5 (h.getD 5 ""))
                              (gp_append (gp_txt "\n      ")
                                (gp_append (gp_th lbl6 (h.getD 6 ""))
                                  (gp_txt "\n    ")))))))))))))))
  have gpTr3 : GP _ [tr3Node] :=
    gp_el "tr" [] rfl
      (gp_append (gp_txt "\n      ")
        (gp_append (gp_el "th" [("class", "small-header")] rfl (gp_txt "Sched. No."))
          (gp_append (gp_txt "\n      ")
            (gp_append (gp_el "th" [("class", "small-header")] rfl
                (gp_txt "Road, Street, & No. or Name of House"))
              (gp_append (gp_txt "\n      ")
                (gp_append (gp_el "th" [("class", "small-header")] rfl (gp_txt "Houses"))
                  (gp_append (gp_txt "\n      ")
                    (gp_append (gp_el "th" [("class", "smaller-header")] rfl
                        (gp_txt "Name & Surname of each Person"))
                      (gp_append (gp_txt "\n      ")
                        (gp_append (gp_el "th" [("class", "smaller-header")] rfl
                            (gp_txt "Relation to Head of Family"))
                          (gp_append (gp_txt "\n      ")
                            (gp_append (gp_el "th" [("class", "smaller-header")] rfl
                                (gp_txt "Condition"))
                              (gp_append (gp_txt "\n      ")
                                (gp_append (gp_el "th" [("class", "smaller-header")] rfl
                                    (gp_txt "Age of"))
                                  (gp_append (gp_txt "\n      ")
                                    (gp_append (gp_el "th" [("class", "small-header")] rfl
                                        (gp_txt "Age of"))
                                      (gp_append (gp_txt "\n      ")
                                        (gp_append (gp_el "th" [("class", "small-header")] rfl
                                            (gp_txt "Rank, Profession, or Occupation"))
                                          (gp_append (gp_txt "\n      ")
                                            (gp_append (gp_el "th" [("class", "small-header")] rfl
                                                (gp_txt "Where Born"))
                                              (gp_append (gp_txt "\n      ")
                                                (gp_append
                                                  (gp_el "th" [("class", "small-header")] rfl
                                                    (gp_txt "Whether Blind or Deaf-and-Dumb"))
                                                  (gp_append (gp_txt "\n      ")
                                                    (gp_append
                                                      (gp_el "th" [("class", "small-header")] rfl
                                                        gp_nil)
                                                      (gp_txt "\n    ")))))))))))))))))))))))))
  have gpColg : GP _ [colgroupNode] :=
    gp_el "colgroup" [] rfl
      (gp_void "col" [("style", "width:8.33%"), ("span", "7")] rfl)
  have gpThead : GP _ [theadNode h] :=
    gp_el "thead" [] rfl
      (gp_append (gp_txt "\n    ")
        (gp_append gpTr1
          (gp_append (gp_txt "\n    ")
            (gp_append gpTr2
              (gp_append (gp_txt "\n    ")
                (gp_append gpTr3 (gp_txt "\n  ")))))))
  have gpTbody : GP _ [tbodyNode rows] :=
    gp_el "tbody" [] rfl
      (gp_append (gp_rows_nodes rows 0) (gp_txt "\n    \n  "))
  have gpTfootTr : GP _ [tfootTrNode f] :=
    gp_el "tr" [] rfl
      (gp_append (gp_txt "\n      ")
        (gp_append (gp_el "td" [("colspan", "2"), ("align", "right")] rfl
            (gp_txt "Total of Houses..."))
          (gp_append (gp_txt "\n      ")
            (gp_append (gp_fv (f.getD 0 ""))
              (gp_append (gp_txt "\n      ")
                (gp_append (gp_fv (f.getD 1 ""))
                  (gp_append (gp_txt "\n      ")
                    (gp_append (gp_el "td" [("colspan", "3"), ("align", "right")] rfl
                        (gp_txt "Total of Males and Females..."))
                      (gp_append (gp_txt "\n      ")
                        (gp_append (gp_fv (f.getD 2 ""))
                          (gp_append (gp_txt "\n      ")
                            (gp_append (gp_fv (f.getD 3 ""))
                              (gp_append (gp_txt "\n      ")
                                (gp_append (gp_el "td" [("colspan", "2")] rfl gp_nil)
                                  (gp_append (gp_el "td" [] rfl gp_nil)
                                    (gp_txt "\n    "))))))))))))))))
  have gpTfoot : GP _ [tfootNode f] :=
    gp_el "tfoot" [] rfl
      (gp_append (gp_txt "\n    ")
        (gp_append gpTfootTr (gp_txt "\n  ")))
  have gpTable : GP _ [tableNode h rows f] :=
    gp_el "table" [("border", "1"), ("cellspacing", "0"), ("cellpadding", "0")] rfl
      (gp_append (gp_txt "\n  ")
        (gp_append gpColg
          (gp_append (gp_txt "\n  ")
            (gp_append gpThead
              (gp_append (gp_txt "\n  ")
                (gp_append gpTbody
                  (gp_append (gp_txt "\n  ")
                    (gp_append (gp_txt "\n  ")
                      (gp_append gpTfoot (gp_txt "\n"))))))))))
  have gpBody : GP _ [bodyNode h rows f] :=
    gp_el "body" [] rfl
      (gp_append (gp_txt "\n")
        (gp_append (gp_txt "\n")
          (gp_append gpTable (gp_txt "\n"))))
  have gpHtml : GP _ [htmlNode h rows f] :=
    gp_el "html" [("lang", "en")] rfl
      (gp_append (gp_txt "\n")
        (gp_append gpHead
          (gp_append (gp_txt "\n")
            (gp_append gpBody (gp_txt "\n")))))
  have gpAll : GP _ ([Node.text "\n"] ++ [htmlNode h rows f]) :=
    gp_append (gp_txt "\n") gpHtml
  refine gp_congr ?_ gpAll
  simp only [pageToks, chunkAToks, chunkBToks, chunkCToks, chunkDToks, chunkEToks, chunkFToks,
    chunkGToks, chunkHToks, chunkMidToks, chunkTailToks, tfChunk0Toks, tfChunk1Toks,
    tfChunk2Toks, tfChunk3Toks, tfChunk4Toks, thToks, fvToks, thStyleAttrs, cssText,
    lbl0, lbl1, lbl2, lbl3, lbl4, lbl5, lbl6, List.append_assoc, List.cons_append,
    List.nil_append, List.singleton_append]

end Census
